import Mathlib

/-!
Verification of the cognitive RSVP reading engine.

This file gives a shallow embedding, in Lean 4, of the two core classes of
the speed-reader repository: the CognitiveEngine (linguistic analyzer, ORP
calculator, fatigue and comprehension monitor, tokenizer) and the
SpeedReader playback engine (cursor, scheduler, navigation).  JavaScript
numbers are modelled as rationals, JavaScript strings as Lean strings
(operated on through their character lists), the mutable engine objects as
explicit state records, and the single pending setTimeout callback as a
list of live timer identifiers together with the stored timeout handle.
All definitions are translated directly from the source file; each carries
a comment naming the source symbol it embeds.
-/

namespace SpeedRead

/-! ## Character-level helpers (JavaScript regex character classes) -/

/-- Membership in the JavaScript regex class backslash-w, that is
[A-Za-z0-9_]. -/
def isWordChar (c : Char) : Bool :=
  c.isAlphanum || c = '_'

/-- The apostrophe character, kept by the analyzer normalization. -/
def apos : Char := Char.ofNat 39

/-- JavaScript regex class backslash-s (whitespace), restricted to the
characters that can occur in the texts considered here (ASCII whitespace
plus no-break space). -/
def jsSpace (c : Char) : Bool :=
  c = ' ' || c = '\t' || c = '\n' || c = '\r' ||
  c = Char.ofNat 11 || c = Char.ofNat 12 || c = Char.ofNat 160

/-- Test for a character of the clause-boundary class [,;:-–—]
(CognitiveEngine.clauseBoundaries). -/
def isClauseBoundaryChar (c : Char) : Bool :=
  c = ',' || c = ';' || c = ':' || c = '-' || c = '–' || c = '—'

/-- Test for a sentence terminator character [.!?]. -/
def isSentenceEndChar (c : Char) : Bool :=
  c = '.' || c = '!' || c = '?'

/-- Test for a character of the symbol class [@#$%&*+=<>]
(the hasSymbols factor). -/
def isSymbolChar (c : Char) : Bool :=
  c = '@' || c = '#' || c = '$' || c = '%' || c = '&' ||
  c = '*' || c = '+' || c = '=' || c = '<' || c = '>'

/-- The regex test for [.!?]+ anchored at the end of the word
(CognitiveEngine.sentenceEnd): the word ends with at least one sentence
terminator, which is equivalent to its last character being one. -/
def sentenceEndTest (w : String) : Bool :=
  match w.data.getLast? with
  | some c => isSentenceEndChar c
  | none => false

/-- The unanchored regex test for a clause-boundary character anywhere in
the word (CognitiveEngine.clauseBoundaries). -/
def clauseBoundaryTest (w : String) : Bool :=
  w.data.any isClauseBoundaryChar

/-- Helper for regex alternatives of the shape p.*q: some character
satisfying p is followed, strictly later, by one satisfying q. -/
def containsThen (p q : Char → Bool) : List Char → Bool
  | [] => false
  | c :: cs => (p c && cs.any q) || containsThen p q cs

/-- Helper for regex alternatives of the shape p.*q.*r. -/
def containsThen3 (p q r : Char → Bool) : List Char → Bool
  | [] => false
  | c :: cs => (p c && containsThen q r cs) || containsThen3 p q r cs

/-- The mixed-case regex test [A-Z].*[a-z].*[A-Z]|[a-z].*[A-Z] applied to
the raw word. -/
def mixedCaseTest (w : String) : Bool :=
  containsThen3 Char.isUpper Char.isLower Char.isUpper w.data ||
  containsThen Char.isLower Char.isUpper w.data

/-- The acronym regex test for two or more uppercase letters spanning the
whole (already lowercased) clean word. -/
def acronymTest (w : String) : Bool :=
  2 ≤ w.data.length && w.data.all Char.isUpper

/-- Normalization used by analyzeToken: strip every character outside
[A-Za-z0-9_ apostrophe hyphen], then lowercase
(word.replace slash-brackets-caret-w-apostrophe-hyphen, lowercased). -/
def cleanWordOf (w : String) : String :=
  String.mk (((w.data.filter (fun c => isWordChar c || c = apos || c = '-')).map Char.toLower))

/-- Normalization used by detectCollocation: lowercase, then strip every
non-word character. -/
def normColloc (w : String) : String :=
  String.mk ((w.data.map Char.toLower).filter isWordChar)

/-! ## Static linguistic tables (CognitiveEngine constructor) -/

/-- Subordinating conjunction set (this.subordinators). -/
def subordinators : List String :=
  ["although", "because", "since", "while", "whereas", "unless",
   "until", "before", "after", "when", "whenever", "where",
   "wherever", "if", "though", "even", "provided", "assuming"]

/-- Transition word set (this.transitions). -/
def transitions : List String :=
  ["however", "therefore", "furthermore", "moreover", "nevertheless",
   "consequently", "meanwhile", "subsequently", "accordingly",
   "hence", "thus", "otherwise", "instead", "alternatively"]

/-- High-frequency word set (this.highFrequency). -/
def highFrequency : List String :=
  ["the", "a", "an", "is", "are", "was", "were", "be", "been",
   "being", "have", "has", "had", "do", "does", "did", "will",
   "would", "could", "should", "may", "might", "must", "shall",
   "can", "to", "of", "in", "for", "on", "with", "at", "by",
   "from", "as", "into", "through", "during", "before", "after",
   "above", "below", "between", "under", "again", "further",
   "then", "once", "here", "there", "when", "where", "why", "how",
   "all", "each", "few", "more", "most", "other", "some", "such",
   "no", "nor", "not", "only", "own", "same", "so", "than", "too",
   "very", "just", "also", "now", "and", "but", "or", "yet", "both",
   "it", "its", "this", "that", "these", "those", "i", "you", "he",
   "she", "we", "they", "me", "him", "her", "us", "them", "my",
   "your", "his", "our", "their", "what", "which", "who", "whom"]

/-- Collocation catalog (this.collocations), in source order: the first
matching phrase wins. -/
def collocationsCatalog : List (List String) :=
  [["in", "order", "to"], ["as", "well", "as"], ["in", "front", "of"],
   ["in", "spite", "of"], ["on", "behalf", "of"], ["in", "terms", "of"],
   ["by", "means", "of"], ["in", "addition", "to"], ["with", "respect", "to"],
   ["on", "top", "of"], ["in", "case", "of"], ["at", "the", "same", "time"],
   ["on", "the", "other", "hand"], ["as", "a", "result"],
   ["for", "example"], ["for", "instance"], ["in", "other", "words"],
   ["that", "is"], ["in", "fact"], ["of", "course"], ["at", "least"],
   ["at", "last"], ["at", "first"], ["first", "of", "all"],
   ["going", "to"], ["used", "to"], ["have", "to"], ["has", "to"],
   ["want", "to"], ["need", "to"], ["able", "to"], ["ought", "to"],
   ["right", "now"], ["so", "far"], ["up", "to"], ["from", "now", "on"]]

/-! ## Timing multipliers and reading modes (this.timing, this.modes) -/

def timingSentenceEnd : ℚ := 2.0
def timingClauseBoundary : ℚ := 1.4
def timingParagraphEnd : ℚ := 2.5
def timingShortWord : ℚ := 0.85
def timingMediumWord : ℚ := 1.0
def timingLongWord : ℚ := 1.25
def timingVeryLongWord : ℚ := 1.5
def timingHighFrequency : ℚ := 0.8
def timingTransition : ℚ := 1.5
def timingSubordinator : ℚ := 1.3
def timingNumber : ℚ := 1.4
def timingMixedCase : ℚ := 1.3
def timingAllCaps : ℚ := 1.2
def timingHasSymbols : ℚ := 1.3
def timingFirstOccurrence : ℚ := 1.35
def timingRecentRepeat : ℚ := 0.75
def timingHyphenated : ℚ := 1.4
def timingCollocationUnit : ℚ := 1.1

/-- The four reading mode keys (keys of this.modes). -/
inductive ModeKey where
  | scan | normal | study | proofread
deriving DecidableEq

/-- Per-mode configuration (this.modes entries; the name and description
strings are display-only and omitted). -/
structure ModeCfg where
  baseMultiplier : ℚ
  punctuationSensitivity : ℚ
  complexityWeight : ℚ
deriving DecidableEq

/-- Lookup of this.modes. -/
def modeCfg : ModeKey → ModeCfg
  | .scan => { baseMultiplier := 0.7, punctuationSensitivity := 0.5, complexityWeight := 0.3 }
  | .normal => { baseMultiplier := 1.0, punctuationSensitivity := 1.0, complexityWeight := 1.0 }
  | .study => { baseMultiplier := 1.4, punctuationSensitivity := 1.3, complexityWeight := 1.5 }
  | .proofread => { baseMultiplier := 1.8, punctuationSensitivity := 1.5, complexityWeight := 1.8 }

/-- Parse of a mode name as used by setMode (the keys of this.modes). -/
def parseModeKey (m : String) : Option ModeKey :=
  if m = "scan" then some .scan
  else if m = "normal" then some .normal
  else if m = "study" then some .study
  else if m = "proofread" then some .proofread
  else none

/-! ## Cognitive engine state -/

/-- Fatigue tracking state (this.fatigue).  Timestamps are rationals
standing for milliseconds since the epoch. -/
structure Fatigue where
  startTime : Option ℚ
  wordsRead : ℕ
  rewinds : ℕ
  pauses : ℕ
  lastPauseTime : Option ℚ
  fatigueLevel : ℚ
  autoSlowdownApplied : ℚ
deriving DecidableEq

/-- Comprehension signal state (this.comprehension).  The
hesitationEvents array is never written with a nonempty value in the
source and is modelled by its length. -/
structure Comprehension where
  rewindCount : ℕ
  pauseCount : ℕ
  hesitationEvents : ℕ
  avgPauseDuration : ℚ
deriving DecidableEq

/-- The mutable state of one CognitiveEngine instance.  The concept
memory (a JavaScript Map) is an insertion-ordered association list. -/
structure Cognitive where
  currentMode : ModeKey
  conceptMemory : List (String × ℕ)
  recentWords : List String
  fatigue : Fatigue
  comprehension : Comprehension
deriving DecidableEq

/-- Fatigue state as built by the constructor and by reset. -/
def initFatigue : Fatigue :=
  { startTime := none, wordsRead := 0, rewinds := 0, pauses := 0,
    lastPauseTime := none, fatigueLevel := 0, autoSlowdownApplied := 0 }

/-- Comprehension state as built by the constructor and by reset. -/
def initComprehension : Comprehension :=
  { rewindCount := 0, pauseCount := 0, hesitationEvents := 0, avgPauseDuration := 0 }

/-- State of a freshly constructed CognitiveEngine. -/
def initCognitive : Cognitive :=
  { currentMode := .normal, conceptMemory := [], recentWords := [],
    fatigue := initFatigue, comprehension := initComprehension }

/-- CognitiveEngine.reset: clears memory, fatigue and comprehension but
keeps the current mode. -/
def resetCognitive (c : Cognitive) : Cognitive :=
  { c with conceptMemory := [], recentWords := [],
           fatigue := initFatigue, comprehension := initComprehension }

/-- The fixed recent-window capacity (this.recentWindowSize). -/
def recentWindowSize : ℕ := 25

/-! ## Concept memory (JavaScript Map) operations -/

/-- Map.has on the concept memory. -/
def memHas (m : List (String × ℕ)) (k : String) : Bool :=
  m.any (fun p => p.1 = k)

/-- Map.get on the concept memory. -/
def memGet (m : List (String × ℕ)) (k : String) : Option ℕ :=
  (m.find? (fun p => p.1 = k)).map (fun p => p.2)

/-- Map.set on the concept memory: update in place when the key exists,
else append (JavaScript Map preserves insertion order). -/
def memSet (m : List (String × ℕ)) (k : String) (v : ℕ) : List (String × ℕ) :=
  if memHas m k then m.map (fun p => if p.1 = k then (k, v) else p)
  else m ++ [(k, v)]

/-- The recent-words window update of analyzeToken step 6: push the word,
then drop the oldest entry when the capacity of 25 is exceeded. -/
def pushWindow (rw : List String) (w : String) : List String :=
  let l := rw ++ [w]
  if recentWindowSize < l.length then l.drop 1 else l

/-! ## Tokens and collocations -/

/-- A detected collocation (the object returned by detectCollocation). -/
structure Colloc where
  words : List String
  length : ℕ
  display : String
deriving DecidableEq

/-- An enriched token (the objects produced by preprocessText). -/
structure Token where
  word : String
  index : ℤ
  paragraphIndex : ℕ
  sentencePosition : ℕ
  isLastInParagraph : Bool
  isLastWord : Bool
  collocation : Option Colloc
deriving DecidableEq

/-- CognitiveEngine.detectCollocation: scan the catalog in order and
return the first phrase whose normalized words match at the given
position. -/
def detectCollocation (ws : List String) (idx : ℕ) : Option Colloc :=
  let remaining := ws.length - idx
  collocationsCatalog.findSome? (fun pat =>
    if remaining < pat.length then none
    else if (List.range pat.length).all
        (fun i => normColloc ((ws.drop (idx + i)).headD "") = pat.getD i "") then
      some { words := (ws.drop idx).take pat.length,
             length := pat.length,
             display := String.intercalate " " ((ws.drop idx).take pat.length) }
    else none)

/-! ## The analysis pipeline (CognitiveEngine.analyzeToken) -/

/-- The analysis object returned by analyzeToken. -/
structure Analysis where
  original : String
  display : String
  multiplier : ℚ
  factors : List String
  isChunkStart : Bool
  chunkWords : Option (List String)
  orpOffset : ℤ
deriving DecidableEq

/-- The final clamp of analyzeToken step 9:
Math.max(0.5, Math.min(3.5, m)). -/
def clampMul (x : ℚ) : ℚ := max 0.5 (min 3.5 x)

/-- The factor tags counted as complexity factors in analyzeToken step 7. -/
def complexityTags : List String :=
  ["long", "very-long", "first-occurrence", "numeric", "mixed-case"]

/-- Step 6 of analyzeToken (concept tracking), as a standalone state
transformer: given the engine state, the clean word and the running
multiplier and factors, produce the updated multiplier, factors and
engine state. -/
def conceptStep (c : Cognitive) (cleanWord : String) (m : ℚ) (fs : List String) :
    ℚ × List String × Cognitive :=
  if 4 < cleanWord.data.length then
    let isRecent := c.recentWords.contains cleanWord
    let seenBefore := memHas c.conceptMemory cleanWord
    let branch : ℚ × List String × List (String × ℕ) :=
      if !seenBefore && !(highFrequency.contains cleanWord) then
        (m * timingFirstOccurrence, fs ++ ["first-occurrence"],
         memSet c.conceptMemory cleanWord 1)
      else if isRecent then
        (m * timingRecentRepeat, fs ++ ["recent-repeat"],
         memSet c.conceptMemory cleanWord ((memGet c.conceptMemory cleanWord).getD 0 + 1))
      else (m, fs, c.conceptMemory)
    (branch.1, branch.2.1,
     { c with conceptMemory := branch.2.2,
              recentWords := pushWindow c.recentWords cleanWord })
  else (m, fs, c)

/-- CognitiveEngine.analyzeToken, translated step for step.  The running
multiplier, factor list and orp offset are threaded through lets; the
concept-tracking step additionally mutates the session memory, so the
function returns the analysis together with the updated engine state. -/
def analyzeToken (tok : Token) (c : Cognitive) : Analysis × Cognitive :=
  let word := tok.word
  let cleanWord := cleanWordOf word
  -- step 1: punctuation analysis
  let s1 : ℚ × List String :=
    if sentenceEndTest word then
      if tok.isLastInParagraph then (1.0 * timingParagraphEnd, ["paragraph-end"])
      else (1.0 * timingSentenceEnd, ["sentence-end"])
    else if clauseBoundaryTest word then (1.0 * timingClauseBoundary, ["clause-boundary"])
    else (1.0, [])
  -- step 2: word length complexity
  let length := cleanWord.data.length
  let s2 : ℚ × List String × ℤ :=
    if length ≤ 3 then (s1.1 * timingShortWord, s1.2 ++ ["short"], 0)
    else if length ≤ 7 then (s1.1, s1.2, 0)
    else if length ≤ 11 then (s1.1 * timingLongWord, s1.2 ++ ["long"], 1)
    else (s1.1 * timingVeryLongWord, s1.2 ++ ["very-long"], 2)
  -- step 3: frequency-based adjustment
  let s3 : ℚ × List String :=
    if highFrequency.contains cleanWord then (s2.1 * timingHighFrequency, s2.2.1 ++ ["high-freq"])
    else (s2.1, s2.2.1)
  -- step 4: semantic role
  let s4a : ℚ × List String :=
    if transitions.contains cleanWord then (s3.1 * timingTransition, s3.2 ++ ["transition"])
    else (s3.1, s3.2)
  let s4 : ℚ × List String :=
    if subordinators.contains cleanWord then (s4a.1 * timingSubordinator, s4a.2 ++ ["subordinator"])
    else (s4a.1, s4a.2)
  -- step 5: token type analysis
  let s5a : ℚ × List String :=
    if word.data.any Char.isDigit then (s4.1 * timingNumber, s4.2 ++ ["numeric"])
    else (s4.1, s4.2)
  let s5b : ℚ × List String :=
    if mixedCaseTest word then (s5a.1 * timingMixedCase, s5a.2 ++ ["mixed-case"])
    else (s5a.1, s5a.2)
  let s5c : ℚ × List String :=
    if acronymTest cleanWord then (s5b.1 * timingAllCaps, s5b.2 ++ ["acronym"])
    else (s5b.1, s5b.2)
  let s5d : ℚ × List String :=
    if word.data.any isSymbolChar then (s5c.1 * timingHasSymbols, s5c.2 ++ ["symbols"])
    else (s5c.1, s5c.2)
  let s5 : ℚ × List String :=
    if word.data.contains '-' && decide (3 < word.data.length) then
      (s5d.1 * timingHyphenated, s5d.2 ++ ["hyphenated"])
    else (s5d.1, s5d.2)
  -- step 6: concept tracking (mutates conceptMemory and recentWords)
  let s6 : ℚ × List String × Cognitive := conceptStep c cleanWord s5.1 s5.2
  -- step 7: reading mode
  let mode := modeCfg c.currentMode
  let m7 := s6.1 * mode.baseMultiplier
  let complexityFactors := (s6.2.1.filter (fun f => complexityTags.contains f)).length
  let m7b :=
    if 0 < complexityFactors then
      m7 * (1 + (mode.complexityWeight - 1) * 0.1 * complexityFactors)
    else m7
  -- step 8: fatigue adjustment
  let s8 : ℚ × List String :=
    if 0 < c.fatigue.fatigueLevel then
      (m7b * (1 + c.fatigue.fatigueLevel * 0.3),
       if 0.3 < c.fatigue.fatigueLevel then s6.2.1 ++ ["fatigue-adjusted"] else s6.2.1)
    else (m7b, s6.2.1)
  -- step 9: clamp and assemble the analysis object
  ({ original := word, display := word, multiplier := clampMul s8.1,
     factors := s8.2, isChunkStart := false, chunkWords := none,
     orpOffset := s2.2.2 }, s6.2.2)

/-! ## Fatigue monitoring (CognitiveEngine.updateFatigue) -/

/-- Behavioral events driving the fatigue monitor.  The resume event of
the source carries a duration that its handler ignores; it is omitted
here.  The pause event duration is optional because SpeedReader.pause
emits the event without a duration field. -/
inductive FEvent where
  | start
  | word
  | rewind
  | pause (duration : Option ℚ)
  | resume
deriving DecidableEq

/-- CognitiveEngine.updateFatigue.  The parameter now stands for the
Date.now() timestamp read at the top of the function. -/
def updateFatigue (now : ℚ) (ev : FEvent) (c : Cognitive) : Cognitive :=
  match ev with
  | .start =>
    { c with fatigue :=
        { c.fatigue with startTime := some now, wordsRead := 0, fatigueLevel := 0 } }
  | .word =>
    let f1 := { c.fatigue with wordsRead := c.fatigue.wordsRead + 1 }
    let f2 :=
      match f1.startTime with
      | some st =>
        let minutes := (now - st) / 60000
        if 5 < minutes then { f1 with fatigueLevel := min 1 ((minutes - 5) / 20) }
        else f1
      | none => f1
    { c with fatigue := f2 }
  | .rewind =>
    { c with
      fatigue :=
        { c.fatigue with
          rewinds := c.fatigue.rewinds + 1,
          fatigueLevel := min 1 (c.fatigue.fatigueLevel + 0.05) },
      comprehension :=
        { c.comprehension with
          rewindCount := c.comprehension.rewindCount + 1 } }
  | .pause d =>
    let fa := { c.fatigue with pauses := c.fatigue.pauses + 1 }
    let co := { c.comprehension with pauseCount := c.comprehension.pauseCount + 1 }
    let pauseDuration := d.getD 0
    if 3000 < pauseDuration then
      { c with fatigue := { fa with fatigueLevel := min 1 (fa.fatigueLevel + 0.03) },
               comprehension := co }
    else { c with fatigue := fa, comprehension := co }
  | .resume =>
    { c with fatigue :=
        { c.fatigue with fatigueLevel := max 0 (c.fatigue.fatigueLevel - 0.02) } }

/-- Fatigue status report (CognitiveEngine.getFatigueStatus). -/
structure FatigueStatus where
  level : ℚ
  status : String
  recommendation : Option String
deriving DecidableEq

/-- CognitiveEngine.getFatigueStatus. -/
def getFatigueStatus (c : Cognitive) : FatigueStatus :=
  let level := c.fatigue.fatigueLevel
  if level < 0.2 then { level := level, status := "fresh", recommendation := none }
  else if level < 0.5 then
    { level := level, status := "mild",
      recommendation := some "Consider taking a short break soon" }
  else if level < 0.8 then
    { level := level, status := "moderate",
      recommendation := some "Speed has been reduced. Break recommended." }
  else
    { level := level, status := "high",
      recommendation := some "Strong fatigue detected. Please rest." }

/-- Comprehension assessment (CognitiveEngine.assessComprehension). -/
structure ComprehensionResult where
  score : ℚ
  issues : List String
  suggestSlowdown : Bool
  suggestBreak : Bool
deriving DecidableEq

/-- CognitiveEngine.assessComprehension. -/
def assessComprehension (c : Cognitive) : ComprehensionResult :=
  let rewindRate := (c.comprehension.rewindCount : ℚ) / (max 1 (c.fatigue.wordsRead : ℚ))
  let pauseRate := (c.comprehension.pauseCount : ℚ) / (max 1 (c.fatigue.wordsRead : ℚ))
  let p1 : ℚ × List String :=
    if 0.05 < rewindRate then ((1.0 : ℚ) - 0.2, ["frequent-rewinds"]) else (1.0, [])
  let p2 : ℚ × List String :=
    if 0.03 < pauseRate then (p1.1 - 0.1, p1.2 ++ ["frequent-pauses"]) else p1
  let p3 : ℚ × List String :=
    if 0.5 < c.fatigue.fatigueLevel then (p2.1 - 0.2, p2.2 ++ ["fatigue"]) else p2
  { score := max 0 p3.1, issues := p3.2,
    suggestSlowdown := p3.1 < 0.7,
    suggestBreak := p3.1 < 0.5 || 0.7 < c.fatigue.fatigueLevel }

/-! ## ORP calculation -/

/-- The prefix, focus, suffix triple returned by the ORP calculators.
The source field named prefix is called pre here because prefix is a
reserved word in Lean. -/
structure OrpResult where
  pre : String
  focus : String
  suffix : String
deriving DecidableEq

/-- The while loop of the ORP calculators: walk the original word,
counting only word characters, until the clean-character target is
reached or the word ends; returns the number of characters walked. -/
def orpWalk : List Char → ℕ → ℕ
  | _, 0 => 0
  | [], _ + 1 => 0
  | c :: cs, n + 1 =>
    if isWordChar c then orpWalk cs n + 1 else orpWalk cs (n + 1) + 1

/-- The base ORP index into the clean word shared by both calculators. -/
def orpBaseIndex (length : ℕ) : ℕ :=
  if length ≤ 4 then 1
  else if length ≤ 8 then 2
  else if length ≤ 12 then 3
  else length / 4

/-- CognitiveEngine.calculateAdaptiveORP.  The analysis argument only
contributes its orpOffset (analysis.orpOffset or 0), taken here directly
as an integer. -/
def calculateAdaptiveORP (word : String) (orpOffset : ℤ) : OrpResult :=
  let cleanWord := word.data.filter isWordChar
  let length := cleanWord.length
  if length = 0 then { pre := "", focus := word, suffix := "" }
  else if length = 1 then { pre := "", focus := word, suffix := "" }
  else if length = 2 then
    { pre := String.mk (word.data.take 1),
      focus := String.mk ((word.data.drop 1).take 1), suffix := "" }
  else
    let orpIndex : ℤ := (orpBaseIndex length : ℤ) + orpOffset
    let orpIndex : ℕ := (max 0 (min ((length : ℤ) - 1) orpIndex)).toNat
    let actualIndex := orpWalk word.data orpIndex
    { pre := String.mk (word.data.take actualIndex),
      focus := String.mk ((word.data.drop actualIndex).take 1),
      suffix := String.mk (word.data.drop (actualIndex + 1)) }

/-- The basic fallback branch of SpeedReader.calculateORP (no cognitive
offset, no clamping line because no offset is added). -/
def basicORP (word : String) : OrpResult :=
  let cleanWord := word.data.filter isWordChar
  let length := cleanWord.length
  if length = 0 then { pre := "", focus := word, suffix := "" }
  else if length = 1 then { pre := "", focus := word, suffix := "" }
  else if length = 2 then
    { pre := String.mk (word.data.take 1),
      focus := String.mk ((word.data.drop 1).take 1), suffix := "" }
  else
    let orpIndex := orpBaseIndex length
    let actualIndex := orpWalk word.data orpIndex
    { pre := String.mk (word.data.take actualIndex),
      focus := String.mk ((word.data.drop actualIndex).take 1),
      suffix := String.mk (word.data.drop (actualIndex + 1)) }

/-- SpeedReader.calculateORP: delegate to the cognitive engine when an
analysis is available (the engine object always exists in this build),
else fall back to the basic calculation. -/
def calculateORP (word : String) (analysis : Option Analysis) : OrpResult :=
  match analysis with
  | some a => calculateAdaptiveORP word a.orpOffset
  | none => basicORP word

/-- Concatenation of the three parts of an ORP result, at the character
level. -/
def orpConcat (o : OrpResult) : List Char :=
  o.pre.data ++ o.focus.data ++ o.suffix.data

/-! ## Text preprocessing -/

/-- Index of the last newline of a character list, if any. -/
def lastIdxNl : List Char → Option ℕ
  | [] => none
  | c :: cs =>
    match lastIdxNl cs with
    | some k => some (k + 1)
    | none => if c = '\n' then some 0 else none

/-- Leftmost match of the paragraph separator regex (newline,
whitespace-star, newline) in a character list: returns the match start
and length.  The greedy whitespace-star backtracks to the last newline
of the maximal whitespace run following the first newline. -/
def paraBreakAt : List Char → Option (ℕ × ℕ)
  | [] => none
  | c :: rest =>
    if c = '\n' then
      match lastIdxNl (rest.takeWhile jsSpace) with
      | some k => some (0, k + 2)
      | none => (paraBreakAt rest).map (fun p => (p.1 + 1, p.2))
    else (paraBreakAt rest).map (fun p => (p.1 + 1, p.2))

/-- Repeated splitting at paragraph separators, fuelled by the input
length (each separator consumes at least two characters, so the fuel is
never exhausted). -/
def paraSplitAux : ℕ → List Char → List (List Char)
  | 0, cs => [cs]
  | fuel + 1, cs =>
    match paraBreakAt cs with
    | none => [cs]
    | some p => cs.take p.1 :: paraSplitAux fuel (cs.drop (p.1 + p.2))

/-- The split of a text at the paragraph separator regex, as in
text.split of preprocessText. -/
def paraSplit (cs : List Char) : List (List Char) :=
  paraSplitAux cs.length cs

/-- Maximal non-whitespace runs of a character list: the result of a
JavaScript split at whitespace-plus with empty fragments filtered out,
as both parseText and preprocessText do. -/
def wsTokensAux : List Char → List Char → List (List Char)
  | [], acc => if acc.isEmpty then [] else [acc.reverse]
  | c :: cs, acc =>
    if jsSpace c then
      if acc.isEmpty then wsTokensAux cs [] else acc.reverse :: wsTokensAux cs []
    else wsTokensAux cs (c :: acc)

/-- Whitespace tokenization of a character list. -/
def wsTokens (cs : List Char) : List (List Char) :=
  wsTokensAux cs []

/-- The two newline-normalizing replaces of SpeedReader.parseText:
carriage-return newline pairs, then lone carriage returns, become
newlines. -/
def normalizeNewlines : List Char → List Char
  | [] => []
  | '\r' :: '\n' :: rest => '\n' :: normalizeNewlines rest
  | '\r' :: rest => '\n' :: normalizeNewlines rest
  | c :: rest => c :: normalizeNewlines rest

/-- SpeedReader.parseText: normalize newlines, split at whitespace,
drop empty fragments.  The guard for a non-string argument never fires
in this embedding; the empty-string guard is kept. -/
def parseText (text : String) : List String :=
  if text.data.isEmpty then []
  else (wsTokens (normalizeNewlines text.data)).map String.mk

/-- CognitiveEngine.preprocessText: split into paragraphs, then into
words, and enrich every word with positional metadata and collocation
detection.  The global index is the position in the flattened stream,
exactly as the incrementing counter of the source produces. -/
def preprocessText (text : String) : List Token :=
  let paragraphs := (paraSplit text.data).map (fun l => (wsTokens l).map String.mk)
  let rows := paragraphs.enum.flatMap
    (fun pp => pp.2.enum.map (fun wp => (pp.1, pp.2, wp.1, wp.2)))
  rows.enum.map (fun gp =>
    let globalIndex := gp.1
    let paraIndex := gp.2.1
    let wordsP := gp.2.2.1
    let wordIndex := gp.2.2.2.1
    let word := gp.2.2.2.2
    { word := word,
      index := (globalIndex : ℤ),
      paragraphIndex := paraIndex,
      sentencePosition := wordIndex,
      isLastInParagraph := wordIndex = wordsP.length - 1,
      isLastWord := paraIndex = paragraphs.length - 1 && wordIndex = wordsP.length - 1,
      collocation := detectCollocation wordsP wordIndex })

/-! ## SpeedReader configuration -/

/-- The engine configuration (this.config).  The five notification
callbacks are modelled by the event lists the operations return. -/
structure Config where
  wpm : ℚ
  pauseAtPunctuation : Bool
  extraTimeForLongWords : Bool
  adaptiveMode : Bool
  longWordThreshold : ℕ
  punctuationMultiplier : ℚ
  longWordMultiplier : ℚ
deriving DecidableEq

/-- Configuration of a SpeedReader constructed with no options. -/
def defaultConfig : Config :=
  { wpm := 300, pauseAtPunctuation := true, extraTimeForLongWords := true,
    adaptiveMode := true, longWordThreshold := 8,
    punctuationMultiplier := 1.5, longWordMultiplier := 1.3 }

/-- A partial configuration for updateConfig (Object.assign semantics:
only the present fields overwrite). -/
structure PartialConfig where
  wpm : Option ℚ := none
  pauseAtPunctuation : Option Bool := none
  extraTimeForLongWords : Option Bool := none
  adaptiveMode : Option Bool := none
  longWordThreshold : Option ℕ := none
  punctuationMultiplier : Option ℚ := none
  longWordMultiplier : Option ℚ := none
deriving DecidableEq

/-! ## SpeedReader state -/

/-- The full mutable state of one SpeedReader instance, including its
composed CognitiveEngine and the scheduler bookkeeping.  A JavaScript
setTimeout registration is modelled by a fresh identifier appended to
the pending list; timeoutId is the handle the instance stores.  The
identifier counter starts at 1 because browser timeout handles are
positive (the source tests the handle for truthiness). -/
structure Reader where
  config : Config
  words : List String
  tokens : List Token
  currentIndex : ℤ
  isPlaying : Bool
  isPaused : Bool
  startTime : Option ℚ
  pausedTime : Option ℚ
  pauseStartTime : Option ℚ
  totalPausedDuration : ℚ
  skipCount : ℕ
  cognitive : Cognitive
  pending : List ℕ
  timeoutId : Option ℕ
  nextId : ℕ
deriving DecidableEq

/-- State of a freshly constructed SpeedReader with default options. -/
def initReader : Reader :=
  { config := defaultConfig, words := [], tokens := [], currentIndex := 0,
    isPlaying := false, isPaused := false, startTime := none,
    pausedTime := none, pauseStartTime := none, totalPausedDuration := 0,
    skipCount := 0, cognitive := initCognitive,
    pending := [], timeoutId := none, nextId := 1 }

/-- Array access at a JavaScript (possibly negative) index. -/
def listGetInt (l : List α) (i : ℤ) : Option α :=
  if i < 0 then none else l.get? i.toNat

/-- The clearTimeout pattern of the source: when a handle is stored,
cancel that timer and null the handle. -/
def clearPending (r : Reader) : Reader :=
  match r.timeoutId with
  | some t => { r with pending := r.pending.filter (fun x => x ≠ t), timeoutId := none }
  | none => r

/-- Registration of a new scheduled step (this.timeoutId = setTimeout). -/
def schedule (r : Reader) : Reader :=
  { r with pending := r.pending ++ [r.nextId], timeoutId := some r.nextId,
           nextId := r.nextId + 1 }

/-- The current word object returned by SpeedReader.getCurrentWord. -/
structure WordInfo where
  word : String
  displayText : String
  isCollocation : Bool
  index : ℤ
  total : ℕ
  progress : ℚ
  pre : String
  focus : String
  suffix : String
  prevWord : Option String
  nextWord : Option String
  analysis : Option Analysis
deriving DecidableEq

/-- Completion statistics (SpeedReader.complete). -/
structure Stats where
  wordCount : ℕ
  duration : ℚ
  actualWPM : ℤ
  fatigue : FatigueStatus
  comprehension : ComprehensionResult
deriving DecidableEq

/-- Notifications delivered to the configured callbacks.  The
progress payload is its three fields; the state-change payload is the
state name string. -/
inductive Ev where
  | wordChange (wi : WordInfo)
  | progressEv (current : ℤ) (total : ℕ) (pct : ℚ)
  | completeEv (stats : Stats)
  | stateChange (state : String)
  | analysisEv (a : Analysis)
deriving DecidableEq

/-- JavaScript Math.round (round half toward positive infinity). -/
def jsRound (x : ℚ) : ℤ := Int.floor (x + 1 / 2)

/-- SpeedReader.getWordDuration: the adaptive path uses the analysis
multiplier; the fallback path uses the fixed punctuation and length
based multiplier.  The analysis.multiplier truthiness test of the source
is a nonzero test on the clamped multiplier, which is always nonzero. -/
def getWordDuration (cfg : Config) (word : String) (analysis : Option Analysis) : ℤ :=
  let baseInterval := 60000 / cfg.wpm
  match analysis with
  | some a =>
    if cfg.adaptiveMode then jsRound (baseInterval * a.multiplier)
    else
      let m1 : ℚ :=
        if cfg.pauseAtPunctuation then
          if sentenceEndTest word then cfg.punctuationMultiplier * 1.2
          else if (match word.data.getLast? with
                   | some c => isClauseBoundaryChar c
                   | none => false) then cfg.punctuationMultiplier
          else 1
        else 1
      let m2 : ℚ :=
        if cfg.extraTimeForLongWords ∧ cfg.longWordThreshold < (word.data.filter isWordChar).length
        then m1 * cfg.longWordMultiplier else m1
      jsRound (baseInterval * m2)
  | none =>
    let m1 : ℚ :=
      if cfg.pauseAtPunctuation then
        if sentenceEndTest word then cfg.punctuationMultiplier * 1.2
        else if (match word.data.getLast? with
                 | some c => isClauseBoundaryChar c
                 | none => false) then cfg.punctuationMultiplier
        else 1
      else 1
    let m2 : ℚ :=
      if cfg.extraTimeForLongWords ∧ cfg.longWordThreshold < (word.data.filter isWordChar).length
      then m1 * cfg.longWordMultiplier else m1
    jsRound (baseInterval * m2)

/-- The token substitute built inline by getCurrentWord when the token
array has no entry at the cursor: only word and index are set; the
missing fields read as falsy values. -/
def defaultToken (word : String) (idx : ℤ) : Token :=
  { word := word, index := idx, paragraphIndex := 0, sentencePosition := 0,
    isLastInParagraph := false, isLastWord := false, collocation := none }

/-- Result of SpeedReader.getCurrentWord: the word object (none when the
cursor is past the end), the updated state, and the notifications fired
(onAnalysis). -/
structure GcwOut where
  info : Option WordInfo
  rdr : Reader
  evs : List Ev
deriving DecidableEq

/-- SpeedReader.getCurrentWord.  Mutates the analyzer memory (through
analyzeToken) and skipCount (on a collocation start).  The inner none
branch is unreachable for a cursor in range; it corresponds to the
out-of-bounds array read on which the source would throw. -/
def getCurrentWord (r : Reader) : GcwOut :=
  if (r.words.length : ℤ) ≤ r.currentIndex then { info := none, rdr := r, evs := [] }
  else
    match listGetInt r.words r.currentIndex with
    | none => { info := none, rdr := r, evs := [] }
    | some word =>
      let token := (listGetInt r.tokens r.currentIndex).getD (defaultToken word r.currentIndex)
      let pa : Option (Analysis × Cognitive) :=
        if r.config.adaptiveMode then some (analyzeToken token r.cognitive) else none
      let analysis := pa.map (fun q => q.1)
      let cog := match pa with | some q => q.2 | none => r.cognitive
      let aevs : List Ev := match pa with | some q => [Ev.analysisEv q.1] | none => []
      let orp := calculateORP word analysis
      let hit : Option Colloc :=
        match token.collocation with
        | some col => if r.skipCount = 0 then some col else none
        | none => none
      let displayText := match hit with | some col => col.display | none => word
      let sk := match hit with | some col => col.length - 1 | none => r.skipCount
      { info := some
          { word := word, displayText := displayText, isCollocation := hit.isSome,
            index := r.currentIndex, total := r.words.length,
            progress :=
              if 0 < r.words.length then
                ((r.currentIndex : ℚ) / (r.words.length : ℚ)) * 100
              else 0,
            pre := orp.pre, focus := orp.focus, suffix := orp.suffix,
            prevWord :=
              if 0 < r.currentIndex then listGetInt r.words (r.currentIndex - 1) else none,
            nextWord :=
              if r.currentIndex < (r.words.length : ℤ) - 1 then
                listGetInt r.words (r.currentIndex + 1)
              else none,
            analysis := analysis },
        rdr := { r with cognitive := cog, skipCount := sk },
        evs := aevs }

/-- SpeedReader.complete: stop, compute the final statistics and notify. -/
def complete (now : ℚ) (r : Reader) : Reader × List Ev :=
  let r := { r with isPlaying := false, isPaused := false }
  let duration : ℚ :=
    match r.startTime with
    | some st => (now - st - r.totalPausedDuration) / 1000
    | none => 0
  let stats : Stats :=
    { wordCount := r.words.length, duration := duration,
      actualWPM := if 0 < duration then jsRound (((r.words.length : ℚ) / duration) * 60) else 0,
      fatigue := getFatigueStatus r.cognitive,
      comprehension := assessComprehension r.cognitive }
  (r, [Ev.stateChange "completed", Ev.completeEv stats])

/-- SpeedReader.showNextWord, the internal step function.  The delay
passed to setTimeout is not recorded, because a pending step may fire at
any later time in this model (the claims quantify over arbitrary clock
advances). -/
def showNextWord (now : ℚ) (r : Reader) : Reader × List Ev :=
  if 0 < r.skipCount then
    let r1 := { r with skipCount := r.skipCount - 1, currentIndex := r.currentIndex + 1 }
    if r1.isPlaying = true ∧ r1.currentIndex < (r1.words.length : ℤ) then
      (schedule r1, [])
    else (r1, [])
  else if (r.words.length : ℤ) ≤ r.currentIndex then complete now r
  else
    let g := getCurrentWord r
    let r2 := { g.rdr with cognitive := updateFatigue now FEvent.word g.rdr.cognitive }
    match g.info with
    | none => (r2, g.evs)
    | some wi =>
      let evs := g.evs ++
        [Ev.wordChange wi,
         Ev.progressEv (r2.currentIndex + 1) r2.words.length
           ((((r2.currentIndex + 1 : ℤ) : ℚ) / (r2.words.length : ℚ)) * 100)]
      let r3 := { r2 with currentIndex := r2.currentIndex + 1 }
      if r3.isPlaying = true ∧ r3.currentIndex < (r3.words.length : ℤ) then
        (schedule r3, evs)
      else if (r3.words.length : ℤ) ≤ r3.currentIndex then
        let pc := complete now r3
        (pc.1, evs ++ pc.2)
      else (r3, evs)

/-- SpeedReader.play: start or resume reading. -/
def play (now : ℚ) (r : Reader) : Reader × List Ev :=
  if r.words.length = 0 then (r, [])
  else
    let r := if (r.words.length : ℤ) ≤ r.currentIndex then { r with currentIndex := 0 } else r
    let r := { r with isPlaying := true, isPaused := false }
    let r :=
      match r.pauseStartTime with
      | some _ =>
        { r with cognitive := updateFatigue now FEvent.resume r.cognitive,
                 pauseStartTime := none }
      | none => r
    let r :=
      match r.pausedTime with
      | some pt => { r with totalPausedDuration := r.totalPausedDuration + (now - pt),
                            pausedTime := none }
      | none => if r.startTime = none then { r with startTime := some now } else r
    let s := showNextWord now r
    (s.1, Ev.stateChange "playing" :: s.2)

/-- SpeedReader.pause: cancel the pending step, record the pause and
fire the pause fatigue event, which carries no duration. -/
def pauseOp (now : ℚ) (r : Reader) : Reader × List Ev :=
  if r.isPlaying = false then (r, [])
  else
    let r := { r with isPlaying := false, isPaused := true,
                      pausedTime := some now, pauseStartTime := some now }
    let r := clearPending r
    let r := { r with cognitive := updateFatigue now (FEvent.pause none) r.cognitive }
    (r, [Ev.stateChange "paused"])

/-- SpeedReader.toggle. -/
def toggleOp (now : ℚ) (r : Reader) : Reader × List Ev :=
  if r.isPlaying = true then pauseOp now r else play now r

/-- SpeedReader.restart. -/
def restartOp (now : ℚ) (r : Reader) : Reader × List Ev :=
  let p := pauseOp now r
  let r := { p.1 with currentIndex := 0, startTime := none, pausedTime := none,
                      totalPausedDuration := 0, skipCount := 0 }
  let r := { r with cognitive := updateFatigue now FEvent.start (resetCognitive r.cognitive) }
  let g := getCurrentWord r
  let evW : List Ev :=
    match g.info with
    | some wi => [Ev.wordChange wi, Ev.progressEv 1 g.rdr.words.length 0]
    | none => []
  (g.rdr, p.2 ++ g.evs ++ evW ++ [Ev.stateChange "ready"])

/-- SpeedReader.goToWord: clamp the target, pause when playing, move the
cursor, notify, and resume when it was playing. -/
def goToWordOp (now : ℚ) (i : ℤ) (r : Reader) : Reader × List Ev :=
  let i := if i < 0 then 0 else i
  let i := if (r.words.length : ℤ) ≤ i then (r.words.length : ℤ) - 1 else i
  let wasPlaying := r.isPlaying
  let p := if wasPlaying = true then pauseOp now r else (r, [])
  let r1 := { p.1 with currentIndex := i, skipCount := 0 }
  let g := getCurrentWord r1
  let evW : List Ev :=
    match g.info with
    | some wi =>
      [Ev.wordChange wi,
       Ev.progressEv (g.rdr.currentIndex + 1) g.rdr.words.length
         ((((g.rdr.currentIndex + 1 : ℤ) : ℚ) / (g.rdr.words.length : ℚ)) * 100)]
    | none => []
  let q := if wasPlaying = true then play now g.rdr else (g.rdr, [])
  (q.1, p.2 ++ g.evs ++ evW ++ q.2)

/-- SpeedReader.next. -/
def nextOp (now : ℚ) (r : Reader) : Reader × List Ev :=
  if r.currentIndex < (r.words.length : ℤ) - 1 then
    let wasPlaying := r.isPlaying
    let p := if wasPlaying = true then pauseOp now r else (r, [])
    let r1 := { p.1 with currentIndex := p.1.currentIndex + 1, skipCount := 0 }
    let g := getCurrentWord r1
    let evW : List Ev :=
      match g.info with
      | some wi =>
        [Ev.wordChange wi,
         Ev.progressEv (g.rdr.currentIndex + 1) g.rdr.words.length
           ((((g.rdr.currentIndex + 1 : ℤ) : ℚ) / (g.rdr.words.length : ℚ)) * 100)]
      | none => []
    let q := if wasPlaying = true then play now g.rdr else (g.rdr, [])
    (q.1, p.2 ++ g.evs ++ evW ++ q.2)
  else (r, [])

/-- SpeedReader.prev: additionally fires one rewind fatigue event, but
only inside the positive-cursor guard. -/
def prevOp (now : ℚ) (r : Reader) : Reader × List Ev :=
  if 0 < r.currentIndex then
    let wasPlaying := r.isPlaying
    let p := if wasPlaying = true then pauseOp now r else (r, [])
    let r1 := { p.1 with currentIndex := p.1.currentIndex - 1, skipCount := 0 }
    let r2 := { r1 with cognitive := updateFatigue now FEvent.rewind r1.cognitive }
    let g := getCurrentWord r2
    let evW : List Ev :=
      match g.info with
      | some wi =>
        [Ev.wordChange wi,
         Ev.progressEv (g.rdr.currentIndex + 1) g.rdr.words.length
           ((((g.rdr.currentIndex + 1 : ℤ) : ℚ) / (g.rdr.words.length : ℚ)) * 100)]
      | none => []
    let q := if wasPlaying = true then play now g.rdr else (g.rdr, [])
    (q.1, p.2 ++ g.evs ++ evW ++ q.2)
  else (r, [])

/-- SpeedReader.jump: fires one rewind fatigue event on every negative
count, before delegating to goToWord. -/
def jumpOp (now : ℚ) (d : ℤ) (r : Reader) : Reader × List Ev :=
  let newIndex := max 0 (min ((r.words.length : ℤ) - 1) (r.currentIndex + d))
  let r :=
    if d < 0 then { r with cognitive := updateFatigue now FEvent.rewind r.cognitive }
    else r
  goToWordOp now newIndex r

/-- SpeedReader.setWPM: clamp into [50, 1500]. -/
def setWPMOp (n : ℚ) (r : Reader) : Reader :=
  { r with config := { r.config with wpm := max 50 (min 1500 n) } }

/-- SpeedReader.setMode (through CognitiveEngine.setMode): unknown names
leave the mode unchanged. -/
def setModeOp (m : String) (r : Reader) : Reader :=
  match parseModeKey m with
  | some k => { r with cognitive := { r.cognitive with currentMode := k } }
  | none => r

/-- SpeedReader.setAdaptiveMode. -/
def setAdaptiveModeOp (b : Bool) (r : Reader) : Reader :=
  { r with config := { r.config with adaptiveMode := b } }

/-- SpeedReader.updateConfig: Object.assign onto the configuration, with
no validation or clamping. -/
def updateConfigOp (p : PartialConfig) (r : Reader) : Reader :=
  { r with config :=
      { wpm := p.wpm.getD r.config.wpm,
        pauseAtPunctuation := p.pauseAtPunctuation.getD r.config.pauseAtPunctuation,
        extraTimeForLongWords := p.extraTimeForLongWords.getD r.config.extraTimeForLongWords,
        adaptiveMode := p.adaptiveMode.getD r.config.adaptiveMode,
        longWordThreshold := p.longWordThreshold.getD r.config.longWordThreshold,
        punctuationMultiplier := p.punctuationMultiplier.getD r.config.punctuationMultiplier,
        longWordMultiplier := p.longWordMultiplier.getD r.config.longWordMultiplier } }

/-- SpeedReader.load: parse, reset playback and cognitive state, fire
the start fatigue event, notify.  The source does not reset startTime,
pausedTime or pauseStartTime here. -/
def loadOp (now : ℚ) (text : String) (r : Reader) : Reader × List Ev :=
  let r := { r with words := parseText text, currentIndex := 0, isPlaying := false,
                    isPaused := false, totalPausedDuration := 0, skipCount := 0 }
  let r := clearPending r
  let r := { r with tokens := preprocessText text }
  let r := { r with cognitive := updateFatigue now FEvent.start (resetCognitive r.cognitive) }
  (r, [Ev.stateChange "loaded"])

/-- SpeedReader.destroy. -/
def destroyOp (r : Reader) : Reader :=
  let r := clearPending r
  { r with words := [], tokens := [], isPlaying := false, isPaused := false,
           cognitive := resetCognitive r.cognitive }

/-! ## The public operation alphabet and reachability -/

/-- One public operation on a SpeedReader, plus the firing of a live
timer (fire t runs the scheduled showNextWord callback t; a fire on an
identifier that is not pending is a no-op, the timer having already
fired or been cancelled). -/
inductive Op where
  | load (text : String)
  | play
  | pause
  | toggle
  | restart
  | goToWord (i : ℤ)
  | next
  | prev
  | jump (d : ℤ)
  | fire (t : ℕ)
  | getWord
  | setWPM (n : ℚ)
  | setMode (m : String)
  | setAdaptiveMode (b : Bool)
  | updateConfig (p : PartialConfig)
  | destroy

/-- The firing of timer t: runs showNextWord when t is still pending. -/
def fireOp (now : ℚ) (t : ℕ) (r : Reader) : Reader × List Ev :=
  if t ∈ r.pending then showNextWord now { r with pending := r.pending.erase t }
  else (r, [])

/-- Interpretation of one operation at a given clock reading. -/
def applyOp (now : ℚ) (op : Op) (r : Reader) : Reader × List Ev :=
  match op with
  | .load text => loadOp now text r
  | .play => play now r
  | .pause => pauseOp now r
  | .toggle => toggleOp now r
  | .restart => restartOp now r
  | .goToWord i => goToWordOp now i r
  | .next => nextOp now r
  | .prev => prevOp now r
  | .jump d => jumpOp now d r
  | .fire t => fireOp now t r
  | .getWord => ((getCurrentWord r).rdr, (getCurrentWord r).evs)
  | .setWPM n => (setWPMOp n r, [])
  | .setMode m => (setModeOp m r, [])
  | .setAdaptiveMode b => (setAdaptiveModeOp b r, [])
  | .updateConfig p => (updateConfigOp p r, [])
  | .destroy => (destroyOp r, [])

/-- Disciplined use of the engine: play is invoked only while not
playing.  This is exactly the discipline the UI obeys (it drives
play and pause through a toggle guarded by isPlaying); toggle itself is
always available. -/
def opOK (r : Reader) : Op → Prop
  | .play => r.isPlaying = false
  | _ => True

/-- States reachable from a freshly constructed engine by disciplined
operation sequences, under arbitrary clock readings. -/
inductive DReach : Reader → Prop
  | init : DReach initReader
  | step (now : ℚ) (op : Op) (r : Reader) :
      DReach r → opOK r op → DReach (applyOp now op r).1

/-- The scheduler invariant of amended claim C1: at most one step is
pending, every pending step is the one the stored timeout handle names,
and a state that is not playing has no pending step. -/
def SchedInv (r : Reader) : Prop :=
  r.pending.length ≤ 1
  ∧ (∀ t ∈ r.pending, r.timeoutId = some t)
  ∧ (r.isPlaying = false → r.pending = [])

/-- The shape of the scheduler state after one playback step relative to
a base state: either nothing is pending, or exactly the one step the
operation itself scheduled (carrying the first identifier fresh at the
base state) is pending and the engine is playing; the identifier counter
never decreases. -/
def StepOut (base x : Reader) : Prop :=
  (x.pending = [] ∨
    (x.pending = [base.nextId] ∧ x.timeoutId = some base.nextId ∧ x.isPlaying = true))
  ∧ base.nextId ≤ x.nextId

/-! ## Observation helpers and concrete scenarios -/

/-- The display texts of the word-change notifications in an event list. -/
def wordChangeTexts (evs : List Ev) : List String :=
  evs.filterMap (fun e => match e with | Ev.wordChange wi => some wi.displayText | _ => none)

/-- Whether an event list contains a word-change notification. -/
def hasWordChange (evs : List Ev) : Bool :=
  evs.any (fun e => match e with | Ev.wordChange _ => true | _ => false)

/-- The engine right after loading the collocation round-trip text. -/
def c3Loaded : Reader := (applyOp 0 (Op.load "in order to succeed") initReader).1

/-- First, second and third manual steps on the loaded text. -/
def c3Step1 : Reader × List Ev := showNextWord 0 c3Loaded
def c3Step2 : Reader × List Ev := showNextWord 0 c3Step1.1
def c3Step3 : Reader × List Ev := showNextWord 0 c3Step2.1

/-- The engine right after loading a one-word document. -/
def c9Loaded : Reader := (applyOp 0 (Op.load "elephant") initReader).1

/-- Two consecutive currentWord queries at the unchanged cursor. -/
def c9First : GcwOut := getCurrentWord c9Loaded
def c9Second : GcwOut := getCurrentWord c9First.rdr

/-- The engine right after loading a text that starts with a collocation. -/
def c9CollocLoaded : Reader := (applyOp 0 (Op.load "as well as today") initReader).1

/-- The two rewind counters of the engine state (fatigue.rewinds and
comprehension.rewindCount). -/
def rewCounters (c : Cognitive) : ℕ × ℕ :=
  (c.fatigue.rewinds, c.comprehension.rewindCount)

/-! ## General lemmas -/

theorem clampMul_lower (x : ℚ) : 0.5 ≤ clampMul x := le_max_left _ _

theorem clampMul_upper (x : ℚ) : clampMul x ≤ 3.5 := by
  unfold clampMul
  exact max_le (by norm_num) (min_le_left _ _)

/-- The splitting of a list at any position into an initial segment, a
one-element (or empty) focus and the rest concatenates back to the list. -/
theorem take_focus_drop (l : List Char) (i : ℕ) :
    l.take i ++ (l.drop i).take 1 ++ l.drop (i + 1) = l := by
  have h1 : l.drop (i + 1) = (l.drop i).drop 1 := by
    rw [List.drop_drop]
  rw [List.append_assoc, h1, List.take_append_drop, List.take_append_drop]

theorem string_data_mk (l : List Char) : (String.mk l).data = l := rfl

theorem string_data_empty : ("" : String).data = [] := rfl

/-! ## C2: the analysis multiplier is clamped into [0.5, 3.5] -/

/-- C2: for every token and every analyzer state (any session memory,
any mode, any fatigue level), the multiplier of the analysis returned by
analyzeToken lies in the closed interval [0.5, 3.5]. -/
theorem c2_multiplier_in_range (tok : Token) (c : Cognitive) :
    0.5 ≤ (analyzeToken tok c).1.multiplier ∧ (analyzeToken tok c).1.multiplier ≤ 3.5 := by
  have h : ∃ x, (analyzeToken tok c).1.multiplier = clampMul x := ⟨_, rfl⟩
  obtain ⟨x, hx⟩ := h
  rw [hx]
  exact ⟨clampMul_lower x, clampMul_upper x⟩

/-! ## C4: reassembly of the ORP split -/

/-- The first two characters of a list split as two one-element takes. -/
theorem take_one_take_one (l : List Char) : l.take 1 ++ (l.drop 1).take 1 = l.take 2 :=
  (List.take_add l 1 1).symm

/-- Characterization of the adaptive ORP split: outside the degenerate
two-clean-character case the three parts concatenate to the original
word; in that case they concatenate to its first two characters only. -/
theorem calculateAdaptiveORP_concat (w : String) (off : ℤ) :
    orpConcat (calculateAdaptiveORP w off) =
      if (w.data.filter isWordChar).length = 2 then w.data.take 2 else w.data := by
  simp only [calculateAdaptiveORP, orpConcat]
  split_ifs with h0 h1 h2 <;>
    simp_all only [string_data_mk, string_data_empty, List.nil_append, List.append_nil] <;>
    first
      | omega
      | rfl
      | exact take_one_take_one w.data
      | exact take_focus_drop _ _

/-- Characterization of the basic fallback ORP split, identical in shape. -/
theorem basicORP_concat (w : String) :
    orpConcat (basicORP w) =
      if (w.data.filter isWordChar).length = 2 then w.data.take 2 else w.data := by
  simp only [basicORP, orpConcat]
  split_ifs with h0 h1 h2 <;>
    simp_all only [string_data_mk, string_data_empty, List.nil_append, List.append_nil] <;>
    first
      | omega
      | rfl
      | exact take_one_take_one w.data
      | exact take_focus_drop _ _

/-- C4, amended: for every word and every orpOffset, the ORP calculator
splits the word so that prefix, focus and suffix concatenate back to the
original word, except when the word has exactly two word characters
(clean length 2), in which case the result is only the first two
characters of the original word, dropping the rest (in particular
trailing punctuation).  The same holds for the SpeedReader wrapper with
any analysis argument. -/
theorem c4_orp_concat (w : String) (off : ℤ) (a : Option Analysis) :
    (orpConcat (calculateAdaptiveORP w off) =
      if (w.data.filter isWordChar).length = 2 then w.data.take 2 else w.data)
    ∧ (orpConcat (calculateORP w a) =
      if (w.data.filter isWordChar).length = 2 then w.data.take 2 else w.data) := by
  refine ⟨calculateAdaptiveORP_concat w off, ?_⟩
  unfold calculateORP
  match a with
  | some x => exact calculateAdaptiveORP_concat w x.orpOffset
  | none => exact basicORP_concat w

/-- C4, counterexample to the claim as stated: on the word "is." (clean
length 2) the ORP parts concatenate to "is", not to the original word:
the trailing period appears in none of prefix, focus, suffix. -/
theorem c4_orp_concat_counterexample :
    orpConcat (calculateAdaptiveORP "is." 0) ≠ "is.".data ∧
    orpConcat (calculateAdaptiveORP "is." 0) = "is".data := by
  constructor
  · decide
  · decide

/-! ## C6: fatigue monotonicity -/

/-- C6: from any monitor state with fatigue level in [0, 1], a rewind
event, or a pause event with duration above 3000 ms, never decreases the
fatigue level; a resume event never increases it; and in all three cases
the resulting level stays in [0, 1]. -/
theorem c6_fatigue_monotone (c : Cognitive) (now d : ℚ)
    (h0 : 0 ≤ c.fatigue.fatigueLevel) (h1 : c.fatigue.fatigueLevel ≤ 1) :
    (c.fatigue.fatigueLevel ≤ (updateFatigue now FEvent.rewind c).fatigue.fatigueLevel
      ∧ 0 ≤ (updateFatigue now FEvent.rewind c).fatigue.fatigueLevel
      ∧ (updateFatigue now FEvent.rewind c).fatigue.fatigueLevel ≤ 1)
    ∧ (3000 < d →
        c.fatigue.fatigueLevel ≤
            (updateFatigue now (FEvent.pause (some d)) c).fatigue.fatigueLevel
          ∧ 0 ≤ (updateFatigue now (FEvent.pause (some d)) c).fatigue.fatigueLevel
          ∧ (updateFatigue now (FEvent.pause (some d)) c).fatigue.fatigueLevel ≤ 1)
    ∧ ((updateFatigue now FEvent.resume c).fatigue.fatigueLevel ≤ c.fatigue.fatigueLevel
      ∧ 0 ≤ (updateFatigue now FEvent.resume c).fatigue.fatigueLevel
      ∧ (updateFatigue now FEvent.resume c).fatigue.fatigueLevel ≤ 1) := by
  refine ⟨?_, ?_, ?_⟩
  · show c.fatigue.fatigueLevel ≤ min 1 (c.fatigue.fatigueLevel + 0.05)
        ∧ 0 ≤ min 1 (c.fatigue.fatigueLevel + 0.05)
        ∧ min 1 (c.fatigue.fatigueLevel + 0.05) ≤ 1
    refine ⟨le_min h1 (by linarith), le_min (by norm_num) (by linarith), min_le_left _ _⟩
  · intro hd
    have hlvl : (updateFatigue now (FEvent.pause (some d)) c).fatigue.fatigueLevel =
        min 1 (c.fatigue.fatigueLevel + 0.03) := by
      simp only [updateFatigue, Option.getD_some]
      rw [if_pos hd]
    rw [hlvl]
    refine ⟨le_min h1 (by linarith), le_min (by norm_num) (by linarith), min_le_left _ _⟩
  · show max 0 (c.fatigue.fatigueLevel - 0.02) ≤ c.fatigue.fatigueLevel
        ∧ 0 ≤ max 0 (c.fatigue.fatigueLevel - 0.02)
        ∧ max 0 (c.fatigue.fatigueLevel - 0.02) ≤ 1
    refine ⟨max_le h0 (by linarith), le_max_left _ _, max_le (by norm_num) (by linarith)⟩

/-- Witness for C6 at a concrete state with fatigue level one half and a
pause of four seconds. -/
theorem c6_fatigue_monotone_witness :
    (0 ≤ ({ initCognitive with
              fatigue := { initFatigue with fatigueLevel := 0.5 } } :
            Cognitive).fatigue.fatigueLevel
      ∧ ({ initCognitive with
             fatigue := { initFatigue with fatigueLevel := 0.5 } } :
           Cognitive).fatigue.fatigueLevel ≤ 1)
    ∧ (3000 < (4000 : ℚ))
    ∧ ({ initCognitive with
           fatigue := { initFatigue with fatigueLevel := 0.5 } } :
         Cognitive).fatigue.fatigueLevel ≤
        (updateFatigue 0 (FEvent.pause (some 4000))
          { initCognitive with
            fatigue := { initFatigue with fatigueLevel := 0.5 } }).fatigue.fatigueLevel := by
  refine ⟨⟨by norm_num, by norm_num⟩, by norm_num, ?_⟩
  exact ((c6_fatigue_monotone
    { initCognitive with fatigue := { initFatigue with fatigueLevel := 0.5 } }
    0 4000 (by norm_num) (by norm_num)).2.1 (by norm_num)).1

/-! ## C8: words-per-minute clamping -/

/-- C8, amended: setWPM always stores a value in [50, 1500] (the clamp
of its argument), but updateConfig assigns a supplied wpm field without
any clamping, so out-of-range values are stored as given. -/
theorem c8_wpm_clamping (r : Reader) (n : ℚ) (p : PartialConfig) (v : ℚ)
    (hp : p.wpm = some v) :
    (50 ≤ (setWPMOp n r).config.wpm ∧ (setWPMOp n r).config.wpm ≤ 1500)
    ∧ (updateConfigOp p r).config.wpm = v := by
  refine ⟨⟨le_max_left _ _, max_le (by norm_num) (min_le_left _ _)⟩, ?_⟩
  simp [updateConfigOp, hp]

/-- Witness for C8 at the initial reader, a requested rate of 5000 and a
partial configuration carrying wpm 5000. -/
theorem c8_wpm_clamping_witness :
    ({ wpm := some 5000 } : PartialConfig).wpm = some 5000
    ∧ 50 ≤ (setWPMOp 5000 initReader).config.wpm
    ∧ (updateConfigOp { wpm := some 5000 } initReader).config.wpm = 5000 := by
  refine ⟨rfl, ?_, ?_⟩
  · exact (c8_wpm_clamping initReader 5000 { wpm := some 5000 } 5000 rfl).1.1
  · exact (c8_wpm_clamping initReader 5000 { wpm := some 5000 } 5000 rfl).2

/-- C8, counterexample to the claim as stated: updateConfig with a wpm
field of 5000 stores 5000, which is outside [50, 1500]. -/
theorem c8_updateConfig_counterexample :
    (updateConfigOp { wpm := some 5000 } initReader).config.wpm = 5000
    ∧ ¬ (updateConfigOp { wpm := some 5000 } initReader).config.wpm ≤ 1500 := by
  constructor
  · rfl
  · decide

/-! ## C10: the pause event carries no duration -/

/-- C10, amended: a pause() call while playing emits the pause fatigue
event with no duration, so the long-pause branch cannot run: the pause
counters of the fatigue and comprehension states increment by exactly
one and the fatigue level is unchanged.  A pause() call while not
playing is a no-op that emits nothing and increments nothing. -/
theorem c10_pause_event (r : Reader) (now : ℚ) :
    (r.isPlaying = true →
      (pauseOp now r).1.cognitive.fatigue.fatigueLevel = r.cognitive.fatigue.fatigueLevel
      ∧ (pauseOp now r).1.cognitive.fatigue.pauses = r.cognitive.fatigue.pauses + 1
      ∧ (pauseOp now r).1.cognitive.comprehension.pauseCount =
          r.cognitive.comprehension.pauseCount + 1)
    ∧ (r.isPlaying = false → pauseOp now r = (r, [])) := by
  constructor
  · intro hp
    have hb : (pauseOp now r).1.cognitive =
        updateFatigue now (FEvent.pause none) (clearPending
          { r with isPlaying := false, isPaused := true,
                   pausedTime := some now, pauseStartTime := some now }).cognitive := by
      simp only [pauseOp, hp]
      rfl
    have hcc : (clearPending
        { r with isPlaying := false, isPaused := true,
                 pausedTime := some now, pauseStartTime := some now }).cognitive =
        r.cognitive := by
      unfold clearPending
      split <;> rfl
    rw [hb, hcc]
    simp only [updateFatigue, Option.getD_none]
    rw [if_neg (by norm_num : ¬ (3000 : ℚ) < 0)]
    exact ⟨rfl, rfl, rfl⟩
  · intro hp
    simp [pauseOp, hp]

/-- Witness for C10: a playing two-word reader, and the initial reader,
which is not playing. -/
theorem c10_pause_event_witness :
    ((applyOp 0 Op.play (applyOp 0 (Op.load "a b") initReader).1).1.isPlaying = true
      ∧ (pauseOp 1 (applyOp 0 Op.play (applyOp 0 (Op.load "a b") initReader).1).1).1.cognitive.fatigue.pauses =
          (applyOp 0 Op.play (applyOp 0 (Op.load "a b") initReader).1).1.cognitive.fatigue.pauses + 1)
    ∧ (initReader.isPlaying = false ∧ pauseOp 0 initReader = (initReader, [])) := by
  refine ⟨⟨by decide, ?_⟩, ⟨rfl, ?_⟩⟩
  · exact ((c10_pause_event
      (applyOp 0 Op.play (applyOp 0 (Op.load "a b") initReader).1).1 1).1 (by decide)).2.1
  · exact (c10_pause_event initReader 0).2 rfl

/-- C10, counterexample to the claim as stated: pause() on a reader that
is not playing is a no-op, so the pause counters are NOT incremented on
every pause() call. -/
theorem c10_noop_pause_counterexample :
    (pauseOp 0 initReader).1.cognitive.fatigue.pauses = 0
    ∧ (pauseOp 0 initReader).1.cognitive.comprehension.pauseCount = 0
    ∧ pauseOp 0 initReader = (initReader, []) := by
  refine ⟨rfl, rfl, rfl⟩

/-! ## C5: the recent-words window -/

/-- Folding the analyzer over a token list (repeated analyzeToken calls,
keeping only the state). -/
def analyzeSeq (toks : List Token) (c : Cognitive) : Cognitive :=
  toks.foldl (fun c t => (analyzeToken t c).2) c

/-- The pure window dynamics: repeated pushWindow. -/
def windowFold (ws : List String) (rw : List String) : List String :=
  ws.foldl pushWindow rw

/-- The state component of analyzeToken is the state component of its
concept-tracking step (the other steps read but never write the state). -/
theorem analyzeToken_snd (tok : Token) (c : Cognitive) :
    ∃ m fs, (analyzeToken tok c).2 = (conceptStep c (cleanWordOf tok.word) m fs).2.2 :=
  ⟨_, _, rfl⟩

/-- The state after the concept step changes only the concept memory and
the recent window. -/
theorem conceptStep_charac (c : Cognitive) (w : String) (m : ℚ) (fs : List String) :
    ∃ mem rw, (conceptStep c w m fs).2.2 = { c with conceptMemory := mem, recentWords := rw } := by
  unfold conceptStep
  dsimp only
  split
  · exact ⟨_, _, rfl⟩
  · exact ⟨c.conceptMemory, c.recentWords, rfl⟩

/-- The recent window after the concept step: the clean word is pushed
exactly when it is content-eligible (clean length above 4). -/
theorem conceptStep_recentWords (c : Cognitive) (w : String) (m : ℚ) (fs : List String) :
    (conceptStep c w m fs).2.2.recentWords =
      if 4 < w.data.length then pushWindow c.recentWords w else c.recentWords := by
  unfold conceptStep
  dsimp only
  split
  · rfl
  · rfl

/-- The recent window after one analyzeToken call. -/
theorem analyzeToken_recentWords (tok : Token) (c : Cognitive) :
    (analyzeToken tok c).2.recentWords =
      if 4 < (cleanWordOf tok.word).data.length then
        pushWindow c.recentWords (cleanWordOf tok.word)
      else c.recentWords := by
  obtain ⟨m, fs, h⟩ := analyzeToken_snd tok c
  rw [h, conceptStep_recentWords]

/-- One pushWindow call preserves the window capacity bound. -/
theorem pushWindow_length_le (rw : List String) (w : String)
    (h : rw.length ≤ 25) : (pushWindow rw w).length ≤ 25 := by
  unfold pushWindow recentWindowSize
  dsimp only
  split
  · next hlen =>
    simp only [List.length_drop, List.length_append, List.length_singleton]
    omega
  · next hlen =>
    simp only [not_lt, List.length_append, List.length_singleton] at hlen
    simp only [List.length_append, List.length_singleton]
    omega

/-- The window after folding eligible tokens is the pure window fold of
their clean words. -/
theorem analyzeSeq_recentWords (toks : List Token) (c : Cognitive)
    (h : ∀ t ∈ toks, 4 < (cleanWordOf t.word).data.length) :
    (analyzeSeq toks c).recentWords =
      windowFold (toks.map (fun t => cleanWordOf t.word)) c.recentWords := by
  induction toks generalizing c with
  | nil => rfl
  | cons t ts ih =>
    have ht : 4 < (cleanWordOf t.word).data.length := h t (by simp)
    have hts : ∀ x ∈ ts, 4 < (cleanWordOf x.word).data.length :=
      fun x hx => h x (by simp [hx])
    show (analyzeSeq ts (analyzeToken t c).2).recentWords =
      windowFold (ts.map (fun t => cleanWordOf t.word))
        (pushWindow c.recentWords (cleanWordOf t.word))
    rw [ih (analyzeToken t c).2 hts, analyzeToken_recentWords, if_pos ht]

/-- The pure window fold keeps only the tail of capacity 25. -/
theorem windowFold_drop (ws : List String) (rw : List String) (h : rw.length ≤ 25) :
    windowFold ws rw = (rw ++ ws).drop (rw.length + ws.length - 25) := by
  induction ws generalizing rw with
  | nil =>
    simp only [windowFold, List.foldl_nil, List.append_nil, List.length_nil, Nat.add_zero]
    rw [Nat.sub_eq_zero_of_le h, List.drop_zero]
  | cons w ws ih =>
    show windowFold ws (pushWindow rw w) = _
    unfold pushWindow recentWindowSize
    dsimp only
    split
    · next hlen =>
      have h25 : rw.length = 25 := by
        simp only [List.length_append, List.length_singleton] at hlen
        omega
      have hle : ((rw ++ [w]).drop 1).length ≤ 25 := by
        simp only [List.length_drop, List.length_append, List.length_singleton]
        omega
      rw [ih _ hle]
      have hdd : (rw ++ w :: ws).drop 1 = (rw ++ [w]).drop 1 ++ ws := by
        rw [show rw ++ w :: ws = (rw ++ [w]) ++ ws by simp]
        exact List.drop_append_of_le_length (by
          simp only [List.length_append, List.length_singleton]; omega)
      rw [← hdd, List.drop_drop]
      congr 1
      simp only [List.length_drop, List.length_append, List.length_singleton,
        List.length_cons, List.length_nil]
      omega
    · next hlen =>
      have hle : (rw ++ [w]).length ≤ 25 := by
        simp only [not_lt, List.length_append, List.length_singleton] at hlen
        simp only [List.length_append, List.length_singleton]
        omega
      rw [ih _ hle]
      have hdd : rw ++ [w] ++ ws = rw ++ w :: ws := by simp
      rw [hdd]
      congr 1
      simp only [List.length_append, List.length_singleton, List.length_cons,
        List.length_nil]
      omega

/-- C5: one analyzeToken call preserves the window capacity bound of 25,
and analyzing 26 distinct content-eligible words (clean length above 4)
from a freshly reset analyzer leaves the window holding exactly the last
25 clean words in analysis order, the first one evicted. -/
theorem c5_recent_window :
    (∀ (tok : Token) (c : Cognitive), c.recentWords.length ≤ 25 →
      ((analyzeToken tok c).2).recentWords.length ≤ 25)
    ∧ ∀ (toks : List Token) (c : Cognitive),
        toks.length = 26 →
        (∀ t ∈ toks, 4 < (cleanWordOf t.word).data.length) →
        (toks.map (fun t => cleanWordOf t.word)).Nodup →
        (analyzeSeq toks (resetCognitive c)).recentWords =
          (toks.map (fun t => cleanWordOf t.word)).drop 1 := by
  constructor
  · intro tok c h
    rw [analyzeToken_recentWords]
    split
    · exact pushWindow_length_le _ _ h
    · exact h
  · intro toks c hlen helig _
    rw [analyzeSeq_recentWords toks (resetCognitive c) helig]
    have h0 : (resetCognitive c).recentWords = [] := rfl
    rw [h0, windowFold_drop _ _ (by simp)]
    simp [hlen]

/-- The 26 concrete five-letter words used to witness C5. -/
def c5Words : List String :=
  (List.range 26).map (fun i => String.mk (Char.ofNat (97 + i) :: "aaaa".data))

/-- The 26 concrete tokens used to witness C5. -/
def c5Toks : List Token :=
  c5Words.map (fun w =>
    { word := w, index := 0, paragraphIndex := 0, sentencePosition := 0,
      isLastInParagraph := false, isLastWord := false, collocation := none })

/-- Witness for C5: both parts instantiated at concrete inputs, with
every hypothesis discharged by evaluation. -/
theorem c5_recent_window_witness :
    (initCognitive.recentWords.length ≤ 25
      ∧ ((analyzeToken (c5Toks.headD (defaultToken "x" 0)) initCognitive).2).recentWords.length ≤ 25)
    ∧ (c5Toks.length = 26
      ∧ (∀ t ∈ c5Toks, 4 < (cleanWordOf t.word).data.length)
      ∧ (c5Toks.map (fun t => cleanWordOf t.word)).Nodup
      ∧ (analyzeSeq c5Toks (resetCognitive initCognitive)).recentWords =
          (c5Toks.map (fun t => cleanWordOf t.word)).drop 1) := by
  refine ⟨⟨by decide, ?_⟩, by decide, by decide, by decide, ?_⟩
  · exact c5_recent_window.1 _ initCognitive (by decide)
  · exact c5_recent_window.2 c5Toks initCognitive (by decide) (by decide) (by decide)

/-! ## C3: collocation round-trip -/

/-- C3: loading the text "in order to succeed" and stepping, the first
step displays the joint unit "in order to" (a collocation of length 3)
and leaves skipCount at 2 immediately after; two further showNextWord
calls move the cursor to 3 (three tokens in total) while firing no
further word-change notification, so exactly one fired for the three
tokens. -/
theorem c3_collocation_roundtrip :
    ((listGetInt c3Loaded.tokens 0).bind Token.collocation).map Colloc.length = some 3
    ∧ wordChangeTexts c3Step1.2 = ["in order to"]
    ∧ c3Step1.1.skipCount = 2
    ∧ wordChangeTexts c3Step2.2 = []
    ∧ wordChangeTexts c3Step3.2 = []
    ∧ c3Loaded.currentIndex = 0
    ∧ c3Step3.1.currentIndex = 3 := by
  refine ⟨by decide, by decide, by decide, by decide, by decide, by decide, by decide⟩

/-! ## C9: currentWord is not side-effect-free in adaptive mode -/

unseal Rat.add Rat.mul Rat.inv Rat.sub Rat.ofScientific Nat.gcd in
/-- C9: with adaptive mode on, getCurrentWord mutates the analyzer
memory: on the one-word document "elephant", two consecutive calls at
the unchanged cursor return different analyses, the first tagged
first-occurrence and the second tagged recent-repeat with a strictly
smaller multiplier; the first call inserts into the concept memory and
pushes onto the recent window; and on a text starting with a
collocation, getCurrentWord sets skipCount. -/
theorem c9_getCurrentWord_effects :
    c9Loaded.currentIndex = 0
    ∧ c9First.rdr.currentIndex = 0
    ∧ (c9First.info.bind WordInfo.analysis).map Analysis.factors =
        some ["long", "first-occurrence"]
    ∧ (c9Second.info.bind WordInfo.analysis).map Analysis.factors =
        some ["long", "recent-repeat"]
    ∧ (c9First.info.bind WordInfo.analysis).map Analysis.multiplier = some (27 / 16)
    ∧ (c9Second.info.bind WordInfo.analysis).map Analysis.multiplier = some (15 / 16)
    ∧ ((15 : ℚ) / 16) < 27 / 16
    ∧ c9Loaded.cognitive.conceptMemory = []
    ∧ c9First.rdr.cognitive.conceptMemory = [("elephant", 1)]
    ∧ c9First.rdr.cognitive.recentWords = ["elephant"]
    ∧ c9CollocLoaded.skipCount = 0
    ∧ (getCurrentWord c9CollocLoaded).rdr.skipCount = 2 := by
  refine ⟨by decide, by decide, by decide, by decide, by decide, by decide,
    by norm_num, by decide, by decide, by decide, by decide, by decide⟩

/-! ## C7: rewind event accounting -/

theorem updateFatigue_charac (now : ℚ) (ev : FEvent) (c : Cognitive) :
    ∃ f co, updateFatigue now ev c = { c with fatigue := f, comprehension := co } := by
  unfold updateFatigue
  match ev with
  | .start => exact ⟨_, c.comprehension, rfl⟩
  | .word =>
    dsimp only
    split
    · split
      · exact ⟨_, c.comprehension, rfl⟩
      · exact ⟨_, c.comprehension, rfl⟩
    · exact ⟨_, c.comprehension, rfl⟩
  | .rewind => exact ⟨_, _, rfl⟩
  | .pause d =>
    dsimp only
    split
    · exact ⟨_, _, rfl⟩
    · exact ⟨_, _, rfl⟩
  | .resume => exact ⟨_, c.comprehension, rfl⟩

theorem updateFatigue_word_rewCounters (now : ℚ) (c : Cognitive) :
    rewCounters (updateFatigue now FEvent.word c) = rewCounters c := by
  unfold updateFatigue rewCounters
  dsimp only
  split
  · split
    · rfl
    · rfl
  · rfl

theorem updateFatigue_pause_rewCounters (now : ℚ) (d : Option ℚ) (c : Cognitive) :
    rewCounters (updateFatigue now (FEvent.pause d) c) = rewCounters c := by
  unfold updateFatigue rewCounters
  dsimp only
  split
  · rfl
  · rfl

theorem updateFatigue_resume_rewCounters (now : ℚ) (c : Cognitive) :
    rewCounters (updateFatigue now FEvent.resume c) = rewCounters c := rfl

theorem updateFatigue_rewind_rewCounters (now : ℚ) (c : Cognitive) :
    rewCounters (updateFatigue now FEvent.rewind c) =
      (c.fatigue.rewinds + 1, c.comprehension.rewindCount + 1) := rfl

theorem rewCounters_after_rewind (now : ℚ) {a b : Cognitive}
    (h : rewCounters a = rewCounters b) :
    rewCounters (updateFatigue now FEvent.rewind a) =
      (b.fatigue.rewinds + 1, b.comprehension.rewindCount + 1) := by
  rw [updateFatigue_rewind_rewCounters]
  have h1 : a.fatigue.rewinds = b.fatigue.rewinds := congrArg Prod.fst h
  have h2 : a.comprehension.rewindCount = b.comprehension.rewindCount := congrArg Prod.snd h
  rw [h1, h2]

theorem conceptStep_rewCounters (c : Cognitive) (w : String) (m : ℚ) (fs : List String) :
    rewCounters (conceptStep c w m fs).2.2 = rewCounters c := by
  obtain ⟨mem, rw, h⟩ := conceptStep_charac c w m fs
  rw [h]
  rfl

theorem analyzeToken_rewCounters (tok : Token) (c : Cognitive) :
    rewCounters (analyzeToken tok c).2 = rewCounters c := by
  obtain ⟨m, fs, h⟩ := analyzeToken_snd tok c
  rw [h, conceptStep_rewCounters]

/-- The reader returned by getCurrentWord differs from its input only in
the cognitive state and skipCount, and the new cognitive state is either
unchanged or one analyzeToken step. -/
theorem getCurrentWord_rdr_charac (r : Reader) :
    ∃ cg sk, (getCurrentWord r).rdr = { r with cognitive := cg, skipCount := sk }
      ∧ (cg = r.cognitive ∨ ∃ tok, cg = (analyzeToken tok r.cognitive).2) := by
  unfold getCurrentWord
  split
  · exact ⟨r.cognitive, r.skipCount, rfl, Or.inl rfl⟩
  · split
    · exact ⟨r.cognitive, r.skipCount, rfl, Or.inl rfl⟩
    · dsimp only
      by_cases ha : r.config.adaptiveMode = true
      · rw [if_pos ha]
        exact ⟨_, _, rfl, Or.inr ⟨_, rfl⟩⟩
      · rw [if_neg ha]
        exact ⟨_, _, rfl, Or.inl rfl⟩

theorem getCurrentWord_rewCounters (r : Reader) :
    rewCounters (getCurrentWord r).rdr.cognitive = rewCounters r.cognitive := by
  obtain ⟨cg, sk, hg, hcase⟩ := getCurrentWord_rdr_charac r
  rw [hg]
  rcases hcase with h | ⟨tok, h⟩
  · rw [h]
  · rw [h]
    exact analyzeToken_rewCounters tok r.cognitive

theorem clearPending_cognitive (r : Reader) : (clearPending r).cognitive = r.cognitive := by
  unfold clearPending
  split
  · rfl
  · rfl

theorem pauseOp_rewCounters (now : ℚ) (r : Reader) :
    rewCounters (pauseOp now r).1.cognitive = rewCounters r.cognitive := by
  unfold pauseOp
  split
  · rfl
  · exact (updateFatigue_pause_rewCounters now none _).trans
      (congrArg rewCounters (clearPending_cognitive _))

theorem showNextWord_rewCounters (now : ℚ) (r : Reader) :
    rewCounters (showNextWord now r).1.cognitive = rewCounters r.cognitive := by
  unfold showNextWord
  dsimp only
  split
  · split
    · rfl
    · rfl
  · split
    · rfl
    · split
      · exact (updateFatigue_word_rewCounters now _).trans (getCurrentWord_rewCounters r)
      · split
        · exact (updateFatigue_word_rewCounters now _).trans (getCurrentWord_rewCounters r)
        · split
          · exact (updateFatigue_word_rewCounters now _).trans (getCurrentWord_rewCounters r)
          · exact (updateFatigue_word_rewCounters now _).trans (getCurrentWord_rewCounters r)

theorem play_rewCounters (now : ℚ) (r : Reader) :
    rewCounters (play now r).1.cognitive = rewCounters r.cognitive := by
  unfold play
  by_cases h0 : r.words.length = 0
  · rw [if_pos h0]
  · rw [if_neg h0]
    dsimp only
    by_cases h1 : (r.words.length : ℤ) ≤ r.currentIndex
    · rw [if_pos h1]
      dsimp only
      cases hps : r.pauseStartTime with
      | some t =>
        try dsimp only
        cases hpt : r.pausedTime with
        | some pt =>
          try dsimp only
          exact (showNextWord_rewCounters now _).trans
            (updateFatigue_resume_rewCounters now _)
        | none =>
          try dsimp only
          split
          · exact (showNextWord_rewCounters now _).trans
              (updateFatigue_resume_rewCounters now _)
          · exact (showNextWord_rewCounters now _).trans
              (updateFatigue_resume_rewCounters now _)
      | none =>
        try dsimp only
        cases hpt : r.pausedTime with
        | some pt =>
          try dsimp only
          exact showNextWord_rewCounters now _
        | none =>
          try dsimp only
          split
          · exact showNextWord_rewCounters now _
          · exact showNextWord_rewCounters now _
    · rw [if_neg h1]
      try dsimp only
      cases hps : r.pauseStartTime with
      | some t =>
        try dsimp only
        cases hpt : r.pausedTime with
        | some pt =>
          try dsimp only
          exact (showNextWord_rewCounters now _).trans
            (updateFatigue_resume_rewCounters now _)
        | none =>
          try dsimp only
          split
          · exact (showNextWord_rewCounters now _).trans
              (updateFatigue_resume_rewCounters now _)
          · exact (showNextWord_rewCounters now _).trans
              (updateFatigue_resume_rewCounters now _)
      | none =>
        try dsimp only
        cases hpt : r.pausedTime with
        | some pt =>
          try dsimp only
          exact showNextWord_rewCounters now _
        | none =>
          try dsimp only
          split
          · exact showNextWord_rewCounters now _
          · exact showNextWord_rewCounters now _

theorem goToWordOp_rewCounters (now : ℚ) (i : ℤ) (r : Reader) :
    rewCounters (goToWordOp now i r).1.cognitive = rewCounters r.cognitive := by
  unfold goToWordOp
  dsimp only
  by_cases hwp : r.isPlaying = true
  · rw [if_pos hwp, if_pos hwp]
    exact (play_rewCounters now _).trans
      ((getCurrentWord_rewCounters _).trans (pauseOp_rewCounters now r))
  · rw [if_neg hwp, if_neg hwp]
    exact getCurrentWord_rewCounters _

/-- C7, amended: prev() fires exactly one rewind fatigue event,
incrementing both rewind counters by exactly one, precisely when the
cursor is positive; at cursor 0 it is a no-op that fires nothing.
jump() with a negative count fires exactly one rewind event on every
call (regardless of cursor position or how far the cursor moves) on a
loaded document. -/
theorem c7_rewind_events (r : Reader) (now : ℚ) (d : ℤ) :
    (rewCounters (prevOp now r).1.cognitive =
      (if 0 < r.currentIndex then
        (r.cognitive.fatigue.rewinds + 1, r.cognitive.comprehension.rewindCount + 1)
      else rewCounters r.cognitive))
    ∧ (d < 0 → r.words ≠ [] →
        rewCounters (jumpOp now d r).1.cognitive =
          (r.cognitive.fatigue.rewinds + 1, r.cognitive.comprehension.rewindCount + 1)) := by
  constructor
  · unfold prevOp
    dsimp only
    by_cases hpos : 0 < r.currentIndex
    · rw [if_pos hpos, if_pos hpos]
      by_cases hwp : r.isPlaying = true
      · rw [if_pos hwp, if_pos hwp]
        exact (play_rewCounters now _).trans ((getCurrentWord_rewCounters _).trans
          (rewCounters_after_rewind now (pauseOp_rewCounters now r)))
      · rw [if_neg hwp, if_neg hwp]
        exact (getCurrentWord_rewCounters _).trans (rewCounters_after_rewind now rfl)
    · rw [if_neg hpos, if_neg hpos]
  · intro hd _
    unfold jumpOp
    dsimp only
    rw [if_pos hd]
    exact (goToWordOp_rewCounters now _ _).trans
      (updateFatigue_rewind_rewCounters now r.cognitive)

/-- Witness for C7: a three-word document navigated from cursor 0 with
a backward jump of one. -/
theorem c7_rewind_events_witness :
    ((-1 : ℤ) < 0 ∧ (applyOp 0 (Op.load "a b c") initReader).1.words ≠ [])
    ∧ rewCounters (jumpOp 0 (-1) (applyOp 0 (Op.load "a b c") initReader).1).1.cognitive =
        ((applyOp 0 (Op.load "a b c") initReader).1.cognitive.fatigue.rewinds + 1,
         (applyOp 0 (Op.load "a b c") initReader).1.cognitive.comprehension.rewindCount + 1) := by
  refine ⟨⟨by decide, by decide⟩, ?_⟩
  exact (c7_rewind_events (applyOp 0 (Op.load "a b c") initReader).1 0 (-1)).2
    (by decide) (by decide)

unseal Rat.add Rat.mul Rat.inv Rat.sub Rat.ofScientific Nat.gcd in
/-- C7, counterexample to the claim as stated: at cursor 0 a prev() call
is a no-op: it fires no rewind event, the rewind counters stay 0, and no
notification is emitted. -/
theorem c7_prev_at_zero_counterexample :
    (prevOp 0 (applyOp 0 (Op.load "a b c") initReader).1).1.cognitive.fatigue.rewinds = 0
    ∧ (prevOp 0 (applyOp 0 (Op.load "a b c") initReader).1).1.cognitive.comprehension.rewindCount = 0
    ∧ prevOp 0 (applyOp 0 (Op.load "a b c") initReader).1 =
        ((applyOp 0 (Op.load "a b c") initReader).1, []) := by
  refine ⟨by decide, by decide, by decide⟩

/-! ## C1: scheduler cancellation -/

theorem filter_ne_nil {l : List ℕ} {t : ℕ} (h : ∀ x ∈ l, x = t) :
    l.filter (fun x => x ≠ t) = [] := by
  induction l with
  | nil => rfl
  | cons a l ih =>
    have ha : a = t := h a (by simp)
    have hl : l.filter (fun x => x ≠ t) = [] := ih (fun x hx => h x (by simp [hx]))
    rw [List.filter_cons, if_neg]
    · exact hl
    · simp [ha]

theorem singleton_of_len_le_one {l : List ℕ} {t : ℕ}
    (h1 : l.length ≤ 1) (h2 : t ∈ l) : l = [t] := by
  match l with
  | [] => cases h2
  | [a] => simp only [List.mem_singleton] at h2; rw [h2]
  | a :: b :: l => simp at h1

theorem clearPending_charac (r : Reader) :
    ∃ p o, clearPending r = { r with pending := p, timeoutId := o } := by
  unfold clearPending
  split
  · exact ⟨_, _, rfl⟩
  · exact ⟨r.pending, r.timeoutId, rfl⟩

theorem clearPending_pending (r : Reader) (h : ∀ t ∈ r.pending, r.timeoutId = some t) :
    (clearPending r).pending = [] := by
  unfold clearPending
  cases htid : r.timeoutId with
  | none =>
    dsimp only
    rw [List.eq_nil_iff_forall_not_mem]
    intro t ht
    exact Option.noConfusion (htid ▸ h t ht)
  | some t =>
    dsimp only
    refine filter_ne_nil (fun x hx => ?_)
    have := h x hx
    rw [htid] at this
    exact (Option.some.injEq _ _ ▸ this).symm

theorem pauseOp_sched (now : ℚ) (r : Reader) (hinv : SchedInv r) :
    (pauseOp now r).1.pending = []
    ∧ (pauseOp now r).1.nextId = r.nextId
    ∧ (pauseOp now r).1.isPlaying = false := by
  unfold pauseOp
  by_cases hp : r.isPlaying = false
  · rw [if_pos hp]
    exact ⟨hinv.2.2 hp, rfl, hp⟩
  · rw [if_neg hp]
    dsimp only
    obtain ⟨p, o, hc⟩ := clearPending_charac
      { r with isPlaying := false, isPaused := true,
               pausedTime := some now, pauseStartTime := some now }
    refine ⟨?_, ?_, ?_⟩
    · show (clearPending _).pending = []
      exact clearPending_pending _ (fun t ht => hinv.2.1 t ht)
    · rw [hc]
    · rw [hc]

theorem showNextWord_sched (now : ℚ) (r : Reader) (h : r.pending = []) :
    StepOut r (showNextWord now r).1 := by
  obtain ⟨cg, sk, hg, _⟩ := getCurrentWord_rdr_charac r
  unfold StepOut showNextWord
  try dsimp only
  split
  · split
    · next hc =>
      refine ⟨Or.inr ⟨?_, rfl, hc.1⟩, Nat.le_succ _⟩
      show r.pending ++ [r.nextId] = [r.nextId]
      rw [h]
      rfl
    · exact ⟨Or.inl h, le_refl _⟩
  · split
    · exact ⟨Or.inl h, le_refl _⟩
    · rw [hg]
      try dsimp only
      split
      · exact ⟨Or.inl h, le_refl _⟩
      · split
        · next hc =>
          refine ⟨Or.inr ⟨?_, rfl, hc.1⟩, Nat.le_succ _⟩
          show r.pending ++ [r.nextId] = [r.nextId]
          rw [h]
          rfl
        · split
          · exact ⟨Or.inl h, le_refl _⟩
          · exact ⟨Or.inl h, le_refl _⟩

theorem play_sched (now : ℚ) (r : Reader) (hp : r.isPlaying = false) (hinv : SchedInv r) :
    StepOut r (play now r).1 := by
  have h0 : r.pending = [] := hinv.2.2 hp
  unfold play
  by_cases hw : r.words.length = 0
  · rw [if_pos hw]
    exact ⟨Or.inl h0, le_refl _⟩
  · rw [if_neg hw]
    dsimp only
    by_cases h1 : (r.words.length : ℤ) ≤ r.currentIndex
    · rw [if_pos h1]
      try dsimp only
      cases hps : r.pauseStartTime with
      | some t =>
        try dsimp only
        cases hpt : r.pausedTime with
        | some pt =>
          try dsimp only
          exact showNextWord_sched now _ h0
        | none =>
          try dsimp only
          split
          · exact showNextWord_sched now _ h0
          · exact showNextWord_sched now _ h0
      | none =>
        try dsimp only
        cases hpt : r.pausedTime with
        | some pt =>
          try dsimp only
          exact showNextWord_sched now _ h0
        | none =>
          try dsimp only
          split
          · exact showNextWord_sched now _ h0
          · exact showNextWord_sched now _ h0
    · rw [if_neg h1]
      try dsimp only
      cases hps : r.pauseStartTime with
      | some t =>
        try dsimp only
        cases hpt : r.pausedTime with
        | some pt =>
          try dsimp only
          exact showNextWord_sched now _ h0
        | none =>
          try dsimp only
          split
          · exact showNextWord_sched now _ h0
          · exact showNextWord_sched now _ h0
      | none =>
        try dsimp only
        cases hpt : r.pausedTime with
        | some pt =>
          try dsimp only
          exact showNextWord_sched now _ h0
        | none =>
          try dsimp only
          split
          · exact showNextWord_sched now _ h0
          · exact showNextWord_sched now _ h0

theorem schedInv_of_stepOut {base x : Reader} (h : StepOut base x) : SchedInv x := by
  obtain ⟨hd, _⟩ := h
  rcases hd with h0 | ⟨h1, h2, h3⟩
  · exact ⟨by simp [h0], by simp [h0], fun _ => h0⟩
  · refine ⟨by simp [h1], ?_, ?_⟩
    · intro t ht
      rw [h1, List.mem_singleton] at ht
      rw [ht, h2]
    · intro hpf
      rw [h3] at hpf
      exact absurd hpf (by simp)

theorem stepOut_base_eq {b1 b2 x : Reader} (hs : StepOut b1 x)
    (h : b1.nextId = b2.nextId) : StepOut b2 x := by
  unfold StepOut at hs ⊢
  rw [h] at hs
  exact hs

theorem schedInv_of_pending_nil {x : Reader} (h : x.pending = []) : SchedInv x :=
  ⟨by simp [h], by simp [h], fun _ => h⟩

theorem gcw_pending (x : Reader) : (getCurrentWord x).rdr.pending = x.pending := by
  obtain ⟨cg, sk, hg, _⟩ := getCurrentWord_rdr_charac x
  rw [hg]

theorem gcw_timeoutId (x : Reader) : (getCurrentWord x).rdr.timeoutId = x.timeoutId := by
  obtain ⟨cg, sk, hg, _⟩ := getCurrentWord_rdr_charac x
  rw [hg]

theorem gcw_nextId (x : Reader) : (getCurrentWord x).rdr.nextId = x.nextId := by
  obtain ⟨cg, sk, hg, _⟩ := getCurrentWord_rdr_charac x
  rw [hg]

theorem gcw_isPlaying (x : Reader) : (getCurrentWord x).rdr.isPlaying = x.isPlaying := by
  obtain ⟨cg, sk, hg, _⟩ := getCurrentWord_rdr_charac x
  rw [hg]

theorem gcw_schedInv (x : Reader) (hinv : SchedInv x) : SchedInv (getCurrentWord x).rdr := by
  obtain ⟨cg, sk, hg, _⟩ := getCurrentWord_rdr_charac x
  rw [hg]
  exact hinv

theorem goToWordOp_sched (now : ℚ) (i : ℤ) (r : Reader) (hinv : SchedInv r) :
    StepOut r (goToWordOp now i r).1 := by
  unfold goToWordOp
  dsimp only
  by_cases hwp : r.isPlaying = true
  · rw [if_pos hwp, if_pos hwp]
    try dsimp only
    obtain ⟨hp0, hpn, hpf⟩ := pauseOp_sched now r hinv
    refine stepOut_base_eq (play_sched now _ ?_ ?_) ?_
    · exact (gcw_isPlaying _).trans hpf
    · exact schedInv_of_pending_nil ((gcw_pending _).trans hp0)
    · exact (gcw_nextId _).trans hpn
  · rw [if_neg hwp, if_neg hwp]
    try dsimp only
    refine ⟨Or.inl ?_, le_of_eq (Eq.symm ?_)⟩
    · exact (gcw_pending _).trans (hinv.2.2 (Bool.eq_false_iff.mpr hwp))
    · exact gcw_nextId _

theorem nextOp_sched (now : ℚ) (r : Reader) (hinv : SchedInv r) :
    nextOp now r = (r, []) ∨ StepOut r (nextOp now r).1 := by
  unfold nextOp
  dsimp only
  by_cases hlt : r.currentIndex < (r.words.length : ℤ) - 1
  · rw [if_pos hlt]
    right
    by_cases hwp : r.isPlaying = true
    · rw [if_pos hwp, if_pos hwp]
      try dsimp only
      obtain ⟨hp0, hpn, hpf⟩ := pauseOp_sched now r hinv
      refine stepOut_base_eq (play_sched now _ ?_ ?_) ?_
      · exact (gcw_isPlaying _).trans hpf
      · exact schedInv_of_pending_nil ((gcw_pending _).trans hp0)
      · exact (gcw_nextId _).trans hpn
    · rw [if_neg hwp, if_neg hwp]
      try dsimp only
      refine ⟨Or.inl ?_, le_of_eq (Eq.symm ?_)⟩
      · exact (gcw_pending _).trans (hinv.2.2 (Bool.eq_false_iff.mpr hwp))
      · exact gcw_nextId _
  · rw [if_neg hlt]
    left
    rfl

theorem prevOp_sched (now : ℚ) (r : Reader) (hinv : SchedInv r) :
    prevOp now r = (r, []) ∨ StepOut r (prevOp now r).1 := by
  unfold prevOp
  dsimp only
  by_cases hpos : 0 < r.currentIndex
  · rw [if_pos hpos]
    right
    by_cases hwp : r.isPlaying = true
    · rw [if_pos hwp, if_pos hwp]
      try dsimp only
      obtain ⟨hp0, hpn, hpf⟩ := pauseOp_sched now r hinv
      refine stepOut_base_eq (play_sched now _ ?_ ?_) ?_
      · exact (gcw_isPlaying _).trans hpf
      · exact schedInv_of_pending_nil ((gcw_pending _).trans hp0)
      · exact (gcw_nextId _).trans hpn
    · rw [if_neg hwp, if_neg hwp]
      try dsimp only
      refine ⟨Or.inl ?_, le_of_eq (Eq.symm ?_)⟩
      · exact (gcw_pending _).trans (hinv.2.2 (Bool.eq_false_iff.mpr hwp))
      · exact gcw_nextId _
  · rw [if_neg hpos]
    left
    rfl

theorem jumpOp_sched (now : ℚ) (d : ℤ) (r : Reader) (hinv : SchedInv r) :
    StepOut r (jumpOp now d r).1 := by
  unfold jumpOp
  dsimp only
  by_cases hd : d < 0
  · rw [if_pos hd]
    exact stepOut_base_eq (goToWordOp_sched now _ _ hinv) rfl
  · rw [if_neg hd]
    exact goToWordOp_sched now _ r hinv

theorem restartOp_sched (now : ℚ) (r : Reader) (hinv : SchedInv r) :
    (restartOp now r).1.pending = [] := by
  unfold restartOp
  dsimp only
  exact (gcw_pending _).trans (pauseOp_sched now r hinv).1

theorem loadOp_sched (now : ℚ) (text : String) (r : Reader) (hinv : SchedInv r) :
    (loadOp now text r).1.pending = [] := by
  unfold loadOp
  dsimp only
  exact clearPending_pending _ hinv.2.1

theorem destroyOp_sched (r : Reader) (hinv : SchedInv r) :
    (destroyOp r).pending = [] := by
  unfold destroyOp
  dsimp only
  exact clearPending_pending _ hinv.2.1

theorem fireOp_sched (now : ℚ) (t : ℕ) (r : Reader) (hinv : SchedInv r) :
    SchedInv (fireOp now t r).1 := by
  unfold fireOp
  by_cases hmem : t ∈ r.pending
  · rw [if_pos hmem]
    have hsing : r.pending = [t] := singleton_of_len_le_one hinv.1 hmem
    have herase : r.pending.erase t = [] := by
      rw [hsing]
      exact List.erase_cons_head t []
    exact schedInv_of_stepOut (showNextWord_sched now _ herase)
  · rw [if_neg hmem]
    exact hinv

theorem toggleOp_sched (now : ℚ) (r : Reader) (hinv : SchedInv r) :
    SchedInv (toggleOp now r).1 := by
  unfold toggleOp
  by_cases hp : r.isPlaying = true
  · rw [if_pos hp]
    exact schedInv_of_pending_nil (pauseOp_sched now r hinv).1
  · rw [if_neg hp]
    exact schedInv_of_stepOut (play_sched now r (Bool.eq_false_iff.mpr hp) hinv)

theorem setModeOp_schedInv (m : String) (r : Reader) (hinv : SchedInv r) :
    SchedInv (setModeOp m r) := by
  unfold setModeOp
  split
  · exact hinv
  · exact hinv

/-- Every disciplined-reachable state satisfies the scheduler invariant. -/
theorem dreach_schedInv (r : Reader) (h : DReach r) : SchedInv r := by
  induction h with
  | init => exact ⟨by decide, fun t ht => absurd ht (by simp [initReader]), fun _ => rfl⟩
  | step now op r hr hok ih =>
    cases op with
    | load text => exact schedInv_of_pending_nil (loadOp_sched now text r ih)
    | play => exact schedInv_of_stepOut (play_sched now r hok ih)
    | pause => exact schedInv_of_pending_nil (pauseOp_sched now r ih).1
    | toggle => exact toggleOp_sched now r ih
    | restart => exact schedInv_of_pending_nil (restartOp_sched now r ih)
    | goToWord i => exact schedInv_of_stepOut (goToWordOp_sched now i r ih)
    | next =>
      rcases nextOp_sched now r ih with h | h
      · show SchedInv (nextOp now r).1
        rw [h]
        exact ih
      · exact schedInv_of_stepOut h
    | prev =>
      rcases prevOp_sched now r ih with h | h
      · show SchedInv (prevOp now r).1
        rw [h]
        exact ih
      · exact schedInv_of_stepOut h
    | jump d => exact schedInv_of_stepOut (jumpOp_sched now d r ih)
    | fire t => exact fireOp_sched now t r ih
    | getWord => exact gcw_schedInv r ih
    | setWPM n => exact ih
    | setMode m => exact setModeOp_schedInv m r ih
    | setAdaptiveMode b => exact ih
    | updateConfig p => exact ih
    | destroy => exact schedInv_of_pending_nil (destroyOp_sched r ih)

theorem stepOut_fresh {base x : Reader} (h : StepOut base x) :
    ∀ t ∈ x.pending, base.nextId ≤ t := by
  intro t ht
  rcases h.1 with h0 | ⟨h1, _, _⟩
  · rw [h0] at ht
    cases ht
  · rw [h1, List.mem_singleton] at ht
    rw [ht]

/-- C1, amended: in every engine state reachable by public operations
under the discipline that play() is invoked only while not playing (the
discipline the UI toggle enforces), at most one scheduled step is
pending; any state that is not playing has no pending step (covering
paused, loaded and completed states); pause() and restart() return with
no pending step; goToWord (seek), jump, next and prev leave pending only
a step they scheduled themselves (every stale step is cancelled before
they return), next and prev being no-ops at the boundary; and after
pause() the firing of any timer at any later time is a no-op emitting no
notification, in particular no word change, until play() is called.
Without the play discipline this fails: see the counterexample. -/
theorem c1_scheduler_cancellation (r : Reader) (now : ℚ) (h : DReach r) :
    r.pending.length ≤ 1
    ∧ (r.isPlaying = false → r.pending = [])
    ∧ (applyOp now Op.pause r).1.pending = []
    ∧ (applyOp now Op.restart r).1.pending = []
    ∧ (∀ i t, t ∈ (applyOp now (Op.goToWord i) r).1.pending → r.nextId ≤ t)
    ∧ (∀ d t, t ∈ (applyOp now (Op.jump d) r).1.pending → r.nextId ≤ t)
    ∧ (applyOp now Op.next r = (r, []) ∨
        ∀ t ∈ (applyOp now Op.next r).1.pending, r.nextId ≤ t)
    ∧ (applyOp now Op.prev r = (r, []) ∨
        ∀ t ∈ (applyOp now Op.prev r).1.pending, r.nextId ≤ t)
    ∧ (∀ t now2, applyOp now2 (Op.fire t) (applyOp now Op.pause r).1 =
        ((applyOp now Op.pause r).1, [])) := by
  have hinv := dreach_schedInv r h
  refine ⟨hinv.1, hinv.2.2, (pauseOp_sched now r hinv).1, restartOp_sched now r hinv,
    ?_, ?_, ?_, ?_, ?_⟩
  · intro i t ht
    exact stepOut_fresh (goToWordOp_sched now i r hinv) t ht
  · intro d t ht
    exact stepOut_fresh (jumpOp_sched now d r hinv) t ht
  · rcases nextOp_sched now r hinv with h0 | h0
    · exact Or.inl h0
    · exact Or.inr (stepOut_fresh h0)
  · rcases prevOp_sched now r hinv with h0 | h0
    · exact Or.inl h0
    · exact Or.inr (stepOut_fresh h0)
  · intro t now2
    have hp0 : (pauseOp now r).1.pending = [] := (pauseOp_sched now r hinv).1
    show fireOp now2 t (pauseOp now r).1 = ((pauseOp now r).1, [])
    unfold fireOp
    rw [if_neg (by rw [hp0]; exact List.not_mem_nil t)]

/-- Witness for C1: the initial engine state, reachable by the empty
operation sequence. -/
theorem c1_scheduler_cancellation_witness :
    initReader.pending.length ≤ 1
    ∧ (initReader.isPlaying = false → initReader.pending = [])
    ∧ (applyOp 0 Op.pause initReader).1.pending = []
    ∧ (applyOp 0 Op.restart initReader).1.pending = []
    ∧ (∀ i t, t ∈ (applyOp 0 (Op.goToWord i) initReader).1.pending → initReader.nextId ≤ t)
    ∧ (∀ d t, t ∈ (applyOp 0 (Op.jump d) initReader).1.pending → initReader.nextId ≤ t)
    ∧ (applyOp 0 Op.next initReader = (initReader, []) ∨
        ∀ t ∈ (applyOp 0 Op.next initReader).1.pending, initReader.nextId ≤ t)
    ∧ (applyOp 0 Op.prev initReader = (initReader, []) ∨
        ∀ t ∈ (applyOp 0 Op.prev initReader).1.pending, initReader.nextId ≤ t)
    ∧ (∀ t now2, applyOp now2 (Op.fire t) (applyOp 0 Op.pause initReader).1 =
        ((applyOp 0 Op.pause initReader).1, [])) :=
  c1_scheduler_cancellation initReader 0 DReach.init

/-- C1, counterexample to the claim as stated: without the play
discipline, calling play() twice in a row on a loaded three-word
document leaves two scheduled steps pending at once, and after pause()
(which cancels only the step named by the stored handle) firing the
stale remaining timer emits a word-change notification while the engine
is paused and before any further play(). -/
theorem c1_double_play_counterexample :
    (applyOp 0 Op.play (applyOp 0 Op.play
        (applyOp 0 (Op.load "a b c") initReader).1).1).1.pending.length = 2
    ∧ (applyOp 1 Op.pause (applyOp 0 Op.play (applyOp 0 Op.play
        (applyOp 0 (Op.load "a b c") initReader).1).1).1).1.isPlaying = false
    ∧ hasWordChange (applyOp 2 (Op.fire 1) (applyOp 1 Op.pause
        (applyOp 0 Op.play (applyOp 0 Op.play
          (applyOp 0 (Op.load "a b c") initReader).1).1).1).1).2 = true := by
  refine ⟨by decide, by decide, by decide⟩

end SpeedRead
